import Mathlib

/-!
Verification development for the get_ketabha multi-mirror search, link-resolution
and concurrent-fetch engine.  The Python sources under `src/` are shallowly
embedded: pure functions become Lean functions, the searcher's mutable object
state becomes an explicit `SearcherState` threaded through operations, wall-clock
times and float scores are modelled as rationals, and the network is an explicit
environment of oracles (one answer per URL).  Logging, print statements and the
performance-statistics bookkeeping of the source are elided, as they do not feed
back into any computation.
-/

namespace GetKetabha

/-! ## String helpers modelling the Python primitives used by the source.
`str.lower()` is `pyLower`, `str.strip()` is `pyStrip` (both restricted
to ASCII, which is what every call site in the source operates on); every
helper is structurally recursive so that concrete runs reduce in the kernel. -/

/-- A lowercase hexadecimal digit, the character class `[a-f0-9]` of the source's
regular expressions. -/
def isLowerHex (c : Char) : Bool :=
  ('a' ≤ c && c ≤ 'f') || ('0' ≤ c && c ≤ '9')

/-- A word character for the `\b` boundary of Python regexes (ASCII fragment). -/
def isWordChar (c : Char) : Bool :=
  c.isAlphanum || c = '_'

/-- Whether the list starts with the given pattern of characters. -/
def listStartsWith : List Char → List Char → Bool
  | _, [] => true
  | [], _ :: _ => false
  | c :: cs, p :: ps => c = p && listStartsWith cs ps

/-- ASCII lowercasing of one character, as `str.lower()` does per character. -/
def charLower (c : Char) : Char :=
  if 'A' ≤ c && c ≤ 'Z' then Char.ofNat (c.toNat + 32) else c

/-- `str.lower()` (every call site operates on ASCII). -/
def pyLower (s : String) : String :=
  String.mk (s.data.map charLower)

/-- `str.strip()`: drop whitespace from both ends. -/
def pyStrip (s : String) : String :=
  String.mk (((s.data.dropWhile Char.isWhitespace).reverse.dropWhile
    Char.isWhitespace).reverse)

/-- `str.startswith(pat)`. -/
def strStartsWith (s pat : String) : Bool :=
  listStartsWith s.data pat.data

/-- Fuel-driven splitter on a non-empty pattern, consuming occurrences left to
right (`str.split(pat)` semantics). -/
def splitOnAuxF (pat : List Char) : Nat → List Char → List Char → List (List Char)
  | _, [], acc => [acc.reverse]
  | 0, cs, acc => [acc.reverse ++ cs]
  | fuel + 1, c :: rest, acc =>
    if listStartsWith (c :: rest) pat then
      acc.reverse :: splitOnAuxF pat fuel ((c :: rest).drop pat.length) []
    else
      splitOnAuxF pat fuel rest (c :: acc)

/-- `str.split(pat)` / `String.splitOn` for the non-empty patterns used by the
source. -/
def splitOnL (s pat : String) : List String :=
  if pat.data.isEmpty then [s]
  else (splitOnAuxF pat.data s.data.length s.data []).map String.mk

/-- Whether the next 32 characters exist and are all lowercase hex. -/
def hex32At (cs : List Char) : Bool :=
  decide (32 ≤ cs.length) && (cs.take 32).all isLowerHex

/-- Scanner for `re.search(r'md5=([a-f0-9]{32})', href)`: the first position where
the literal `md5=` is followed by 32 lowercase hex characters; returns the captured
32-character group. -/
def findMd5ParamAux : List Char → Option String
  | [] => none
  | c :: rest =>
    if c = 'm' && listStartsWith rest "d5=".toList && hex32At (rest.drop 3) then
      some (String.mk ((rest.drop 3).take 32))
    else
      findMd5ParamAux rest

/-- `re.search(r'md5=([a-f0-9]{32})', s)` returning the captured hash. -/
def findMd5Param (s : String) : Option String :=
  findMd5ParamAux s.toList

/-- Boundary test for `\b` on the left of a match: start of string or a
non-word character before the match. -/
def leftBoundary : Option Char → Bool
  | none => true
  | some c => !isWordChar c

/-- Boundary test for `\b` on the right of a match: end of string or a
non-word character after the match. -/
def rightBoundary : List Char → Bool
  | [] => true
  | c :: _ => !isWordChar c

/-- Scanner for `re.search(r'\b([a-f0-9]{32})\b', s)`: a 32-character lowercase
hex run delimited by word boundaries. -/
def findHex32BoundaryAux : Option Char → List Char → Option String
  | _, [] => none
  | prev, c :: rest =>
    if leftBoundary prev && hex32At (c :: rest) && rightBoundary ((c :: rest).drop 32) then
      some (String.mk ((c :: rest).take 32))
    else
      findHex32BoundaryAux (some c) rest

/-- `re.search(r'\b([a-f0-9]{32})\b', s)` returning the matched hash. -/
def findHex32Boundary (s : String) : Option String :=
  findHex32BoundaryAux none s.toList

/-- Whether the next four characters are `19xx` or `20xx` with `x` digits. -/
def yearAt (cs : List Char) : Bool :=
  (listStartsWith cs "19".toList || listStartsWith cs "20".toList) &&
    ((cs.drop 2).take 2).length = 2 && ((cs.drop 2).take 2).all Char.isDigit

/-- Scanner for `re.search(r'\b(19|20)\d{2}\b', s)` returning the whole match. -/
def findYearAux : Option Char → List Char → Option String
  | _, [] => none
  | prev, c :: rest =>
    if leftBoundary prev && yearAt (c :: rest) && rightBoundary ((c :: rest).drop 4) then
      some (String.mk ((c :: rest).take 4))
    else
      findYearAux (some c) rest

/-- `re.search(r'\b(19|20)\d{2}\b', s)` returning the matched year string. -/
def findYear (s : String) : Option String :=
  findYearAux none s.toList

/-- Occurrence of a pattern anywhere in a character list. -/
def containsSubAux (pat : List Char) : List Char → Bool
  | [] => pat.isEmpty
  | c :: rest => listStartsWith (c :: rest) pat || containsSubAux pat rest

/-- Python's substring test `pat in s`. -/
def containsSub (s pat : String) : Bool :=
  containsSubAux pat.data s.data

/-- Python's `a or b` on strings where the result must be a string:
`none` and the empty string are falsy. -/
def pyOrS : Option String → String → String
  | some s, d => if s = "" then d else s
  | none, d => d

/-- Normalise an optional string the way the source's `if value:` guards do:
an absent or empty value counts as absent. -/
def optTruthy : Option String → Option String
  | some s => if s = "" then none else some s
  | none => none

/-- First value of a query-string parameter, as in
`parse_qs(query).get(key, [''])[0]`: split on `&`, split each pair on the first
`=`, drop blank values, take the first value for the key (or `""`). -/
def parseQSFirst (query key : String) : String :=
  (((splitOnL query "&").filterMap fun kv =>
    match splitOnL kv "=" with
    | [] => none
    | [_] => none
    | k :: vs =>
      let v := String.intercalate "=" vs
      if k = key && v ≠ "" then some v else none).head?).getD ""

/-- The part of a URL after `scheme://`, as in `url.split('://')[1]`. -/
def afterScheme (u : String) : String :=
  ((splitOnL u "://").drop 1).headD ""

/-- The `netloc` component of `urlparse`: the part after `scheme://` up to the
first `/`, `?` or `#`. -/
def urlNetloc (u : String) : String :=
  String.mk ((afterScheme u).toList.takeWhile fun c => c ≠ '/' && c ≠ '?' && c ≠ '#')

/-- The `path` component of `urlparse`: from the first `/` after the netloc up to
the first `?` or `#`. -/
def urlPath (u : String) : String :=
  let rest := (afterScheme u).toList.dropWhile fun c => c ≠ '/' && c ≠ '?' && c ≠ '#'
  String.mk (rest.takeWhile fun c => c ≠ '?' && c ≠ '#')

/-- The `query` component of `urlparse`: after the first `?`, up to `#`. -/
def urlQuery (u : String) : String :=
  let rest := u.toList.dropWhile fun c => c ≠ '?'
  String.mk ((rest.drop 1).takeWhile fun c => c ≠ '#')

/-! ## Data model

HTML is abstracted at the BeautifulSoup boundary: an `Anchor` is an `<a>`
element (`href` attribute and stripped text), a `Cell` is a `<td>` with its
stripped text, raw text, serialised HTML and contained anchors, and a table is
a list of rows, each a list of cells.  The heterogeneous Python dicts built by
the source become fixed-shape records; a key that a given code path never sets
is modelled by `none`, `""` or `[]`. -/

/-- An `<a>` element: `link.get('href', '')` and `link.get_text(strip=True)`. -/
structure Anchor where
  href : String
  text : String
  deriving DecidableEq, Repr

/-- A `<td>` element.  `text` is `get_text(strip=True)`, `rawText` is
`get_text()`, `html` is `str(cell)`. -/
structure Cell where
  text : String
  rawText : String
  html : String
  anchors : List Anchor
  deriving DecidableEq, Repr

/-- One entry of a book's `mirrors` list built by `_parse_search_results`. -/
structure MirrorRef where
  url : String
  type : String
  name : String
  deriving DecidableEq, Repr

/-- A download-link dict as built by `_get_final_download_links` /
`_get_additional_download_sources`: keys `url`, `type`, `name`, `text`, and the
optional keys `filename` and `content_type`. -/
structure LinkDict where
  url : String
  type : String
  name : String
  text : String
  filename : Option String := none
  contentType : Option String := none
  deriving DecidableEq, Repr

/-- A book dict.  The parser fills every field; the MD5 shortcut path of
`search` builds an entry with only `title`, `author`, `year`, `extension`,
`size`, `md5` and `download_links`, the remaining fields staying at their
absent defaults. -/
structure Book where
  title : String
  author : String := ""
  publisher : String := ""
  year : String := ""
  language : String := ""
  pages : String := ""
  size : String := ""
  extension : String := ""
  md5 : Option String := none
  mirrors : List MirrorRef := []
  downloadLinks : List LinkDict := []
  deriving DecidableEq, Repr

/-! ## Result parser (`_parse_search_results`, `_clean_book_info`)

The locating of the results table is BeautifulSoup mechanics; the parser is
embedded from the row iteration onward, over the list of table rows.  The
standard-library `urljoin` is passed in as a function `uj`. -/

/-- Title extraction from the title cell's anchors: the first anchor whose
stripped text is non-empty, longer than 2 characters and not `"b"`. -/
def anchorTitle (anchors : List Anchor) : Option String :=
  anchors.findSome? fun a =>
    if a.text ≠ "" && 2 < a.text.length && a.text ≠ "b" then some a.text else none

/-- The title chosen for a row: a usable anchor text, else the cell's raw text
if longer than 2 characters, else the `"Unknown Title"` sentinel.  (When the
cell has no anchors the Python `else` branch computes the same fallback.) -/
def titleOfCell (c : Cell) : String :=
  (anchorTitle c.anchors).getD (if c.text ≠ "" && 2 < c.text.length then c.text else "Unknown Title")

/-- The mirror entries collected from the mirrors cell's links: the
`if/elif` chain on each `href`. -/
def mirrorRefs (uj : String → String → String) (baseUrl : String)
    (anchors : List Anchor) : List MirrorRef :=
  anchors.filterMap fun a =>
    if containsSub a.href "/ads.php?md5=" || containsSub a.href "md5=" then
      some ⟨uj baseUrl a.href, "libgen_mirror_1", "LibGen Mirror 1"⟩
    else if containsSub a.href "randombook.org" then
      some ⟨a.href, "randombook", "RandomBook"⟩
    else if containsSub a.href "annas-archive.org" then
      some ⟨a.href, "annas_archive", "Anna's Archive"⟩
    else
      none

/-- The MD5 found in the mirror cell's links (first `href` matching
`md5=([a-f0-9]{32})`), else the fallback scan of every cell's
`get_text() + ' ' + str(cell)` for `\b([a-f0-9]{32})\b`. -/
def md5OfRow (mirrorAnchors : List Anchor) (cells : List Cell) : Option String :=
  match mirrorAnchors.findSome? fun a => findMd5Param a.href with
  | some h => some h
  | none => cells.findSome? fun c => findHex32Boundary (c.rawText ++ " " ++ c.html)

/-- `re.sub(r'^(A |An |The )', '', title, flags=re.IGNORECASE)`. -/
def removeLeadingArticle (t : String) : String :=
  let low := pyLower t
  if strStartsWith low "a " then String.mk (t.data.drop 2)
  else if strStartsWith low "an " then String.mk (t.data.drop 3)
  else if strStartsWith low "the " then String.mk (t.data.drop 4)
  else t

/-- `_clean_book_info`: strip and normalise the parsed fields, inserting the
`"Unknown"` sentinel for empty or `"0"` size and pages. -/
def cleanBookInfo (b : Book) : Book :=
  let title := removeLeadingArticle (pyStrip b.title)
  let year := pyStrip b.year
  let size := pyStrip b.size
  let pages := pyStrip b.pages
  { b with
    title := title
    author := pyStrip b.author
    year := (findYear year).getD year
    size := if size ≠ "" && size ≠ "0" then size else "Unknown"
    extension := pyLower (pyStrip b.extension)
    pages := if pages ≠ "" && pages ≠ "0" then pages else "Unknown" }

/-- The cleaned book built from a row's first nine cells (`cells` is the whole
row again, for the MD5 fallback scan). -/
def rowBook (uj : String → String → String) (baseUrl : String)
    (c0 c1 c2 c3 c4 c5 c6 c7 c8 : Cell) (cells : List Cell) : Book :=
  cleanBookInfo
    { title := titleOfCell c0
      author := c1.text
      publisher := c2.text
      year := c3.text
      language := c4.text
      pages := c5.text
      size := c6.text
      extension := c7.text
      md5 := md5OfRow c8.anchors cells
      mirrors := mirrorRefs uj baseUrl c8.anchors }

/-- One row of the results table: skipped (`none`) if it has fewer than the 9
expected cells or if the cleaned title is empty, otherwise the parsed book. -/
def parseRow (uj : String → String → String) (baseUrl : String)
    (cells : List Cell) : Option Book :=
  match cells with
  | c0 :: c1 :: c2 :: c3 :: c4 :: c5 :: c6 :: c7 :: c8 :: rest =>
    if (rowBook uj baseUrl c0 c1 c2 c3 c4 c5 c6 c7 c8
          (c0 :: c1 :: c2 :: c3 :: c4 :: c5 :: c6 :: c7 :: c8 :: rest)).title ≠ "" then
      some (rowBook uj baseUrl c0 c1 c2 c3 c4 c5 c6 c7 c8
        (c0 :: c1 :: c2 :: c3 :: c4 :: c5 :: c6 :: c7 :: c8 :: rest))
    else none
  | _ => none

/-- `_parse_search_results` over the rows of the located results table. -/
def parseSearchResults (uj : String → String → String) (rows : List (List Cell))
    (baseUrl : String) : List Book :=
  rows.filterMap (parseRow uj baseUrl)

/-! ## Deduplicator (`_remove_duplicates`) -/

/-- `book.get('md5')` under a truthiness test: an absent or empty hash counts
as no hash. -/
def bookMd5 (b : Book) : Option String :=
  optTruthy b.md5

/-- The secondary key `(book.get('title','').lower().strip(),
book.get('author','').lower().strip())`. -/
def bookKey (b : Book) : String × String :=
  (pyStrip (pyLower b.title), pyStrip (pyLower b.author))

/-- Loop body of `_remove_duplicates`, threading the `seen_md5` and
`seen_books` sets.  Note that when a book carries a fresh hash, the hash is
added to `seen_md5` before the title/author check, exactly as in the source. -/
def removeDuplicatesGo (seenMd5 : List String) (seenBooks : List (String × String)) :
    List Book → List Book
  | [] => []
  | b :: rest =>
    match bookMd5 b with
    | some h =>
      if h ∈ seenMd5 then removeDuplicatesGo seenMd5 seenBooks rest
      else
        if bookKey b ∈ seenBooks then removeDuplicatesGo (h :: seenMd5) seenBooks rest
        else b :: removeDuplicatesGo (h :: seenMd5) (bookKey b :: seenBooks) rest
    | none =>
      if bookKey b ∈ seenBooks then removeDuplicatesGo seenMd5 seenBooks rest
      else b :: removeDuplicatesGo seenMd5 (bookKey b :: seenBooks) rest

/-- `_remove_duplicates`. -/
def removeDuplicates (results : List Book) : List Book :=
  removeDuplicatesGo [] [] results

/-! ## Link resolver (`_get_final_download_links`, `get_download_links`)

The network is an environment of oracles keyed by URL: `page` gives the parsed
`ads.php` detail page reached for a URL (`none` — the request failed or the
per-mirror `wait_for` timed out before the page was obtained), `verify` gives
the outcome of `_test_download_link` for a URL, and `resolve` the outcome of
`_resolve_download_link` (`none` — it raised).  The session and `Referer`
header arguments of those helpers select no different link, so the oracles are
keyed by the URL alone.  `urljoin` is the standard-library function, supplied
as the `urljoin` field. -/

/-- The outcome of `_resolve_download_link`: final URL after redirects plus
filename and content-type hints from the response headers. -/
structure Resolution where
  finalUrl : Option String
  filename : Option String
  contentType : Option String
  deriving DecidableEq, Repr

/-- A parsed `ads.php` detail page.  `directAnchors` are the anchors whose
`href` matched one of the Cloudflare/IPFS/CDN patterns, `getAnchors` those
matching `get.php?md5=[a-f0-9]{32}&key=\w+`, `altAnchors` those matching
`/file.php?id=\d+`, each in document order as `soup.find_all` returns them. -/
structure AdsPage where
  status : Nat
  finalUrl : String
  directAnchors : List Anchor
  getAnchors : List Anchor
  altAnchors : List Anchor
  deriving Repr

/-- The network environment of the link resolver. -/
structure GDLEnv where
  page : String → Option AdsPage
  verify : String → Bool
  resolve : String → Option Resolution
  urljoin : String → String → String

/-- The hard-coded substitution list of content mirrors used when synthesising
`get.php` links against other mirrors. -/
def otherMirrors : List String :=
  ["https://libgen.li", "https://libgen.gl", "https://libgen.vg",
   "https://libgen.bz", "https://libgen.is", "https://libgen.pw",
   "https://libgen.ee", "http://libgen.rs", "http://gen.lib.rus.ec",
   "https://libgen.fun", "https://libgen.st", "http://library.lol"]

/-- One direct/CDN link dict before optional resolution. -/
def mkDirectLink (a : Anchor) : LinkDict :=
  { url := a.href, type := "direct_mirror", name := "Direct Mirror",
    text := if a.text = "" then "Direct Mirror" else a.text }

/-- Optional resolution of a direct link (`resolve_final_urls` enabled):
on success the URL is replaced by the resolved final URL and the filename /
content-type hints are attached; a raised resolution leaves the link as is. -/
def resolveDirectLink (env : GDLEnv) (resolveFinalUrls : Bool) (dl : LinkDict) : LinkDict :=
  if resolveFinalUrls then
    match env.resolve dl.url with
    | some res =>
      { dl with url := pyOrS res.finalUrl dl.url,
                filename := optTruthy res.filename,
                contentType := optTruthy res.contentType }
    | none => dl
  else dl

/-- The mirror-substituted `get.php` links synthesised for one verified base
URL: for each other configured mirror that is not part of the current mirror's
URL and has a different domain, build the `get.php` URL with the same `md5` and
`key` parameters and keep it only if it passes `_test_download_link`. -/
def substitutedMirrorLinks (env : GDLEnv) (mirror : String)
    (md5v keyv currentDomain : String) : List LinkDict :=
  otherMirrors.filterMap fun om =>
    if !containsSub mirror om && afterScheme om ≠ currentDomain then
      let otherUrl := om ++ "/get.php?md5=" ++ md5v ++ "&key=" ++ keyv
      if env.verify otherUrl then
        some { url := otherUrl, type := "mirror_download",
               name := "Mirror (" ++ afterScheme om ++ ")",
               text := "Mirror: " ++ afterScheme om }
      else none
    else none

/-- Processing of one `get.php` anchor (with a non-empty `href`): the anchor's
URL is made absolute, the primary link is appended only if
`_test_download_link` succeeds, then verified mirror-substituted links (at most
7) are appended.  The second component is the loop's break condition — 8 or
more accumulated links of type `alternative_download`, a type no branch ever
produces, kept faithfully from the source. -/
def getAnchorStepU (env : GDLEnv) (mirror : String) (acc : List LinkDict)
    (text finalDownloadUrl : String) : List LinkDict × Bool :=
  let acc1 :=
    if env.verify finalDownloadUrl then
      acc ++ [{ url := finalDownloadUrl, type := "direct_download",
                name := "Direct Download", text := text }]
    else acc
  if containsSub (urlPath finalDownloadUrl) "get.php" then
    let qs := urlQuery finalDownloadUrl
    let md5v := parseQSFirst qs "md5"
    if md5v ≠ "" then
      let mls := substitutedMirrorLinks env mirror md5v (parseQSFirst qs "key")
        (urlNetloc finalDownloadUrl)
      let acc2 := acc1 ++ mls.take 7
      (acc2, 8 ≤ (acc2.filter fun l => l.type = "alternative_download").length)
    else (acc1, false)
  else (acc1, false)

/-- See `getAnchorStepU`: the anchor's `href` is made absolute first. -/
def getAnchorStep (env : GDLEnv) (mirror finalUrl : String) (acc : List LinkDict)
    (a : Anchor) : List LinkDict × Bool :=
  getAnchorStepU env mirror acc a.text
    (if strStartsWith a.href "http" then a.href else env.urljoin finalUrl a.href)

/-- The loop over the page's `get.php` anchors: anchors without an `href` are
skipped, each other anchor is processed by `getAnchorStep`, and the loop breaks
early when the step's break condition holds. -/
def processGetAnchors (env : GDLEnv) (mirror finalUrl : String)
    (acc : List LinkDict) : List Anchor → List LinkDict
  | [] => acc
  | a :: rest =>
    if a.href = "" then processGetAnchors env mirror finalUrl acc rest
    else
      let s := getAnchorStep env mirror finalUrl acc a
      if s.2 then s.1 else processGetAnchors env mirror finalUrl s.1 rest

/-- The loop over the page's alternative `/file.php?id=...` anchors: each is
made absolute, optionally resolved, and appended without verification. -/
def processAltAnchors (env : GDLEnv) (resolveFinalUrls : Bool) (finalUrl : String)
    (acc : List LinkDict) : List Anchor → List LinkDict
  | [] => acc
  | a :: rest =>
    if a.href = "" then processAltAnchors env resolveFinalUrls finalUrl acc rest
    else
      let altUrl := if strStartsWith a.href "http" then a.href else env.urljoin finalUrl a.href
      let resolved :=
        if resolveFinalUrls then
          match env.resolve altUrl with
          | some res => (pyOrS res.finalUrl altUrl, optTruthy res.filename, optTruthy res.contentType)
          | none => (altUrl, none, none)
        else (altUrl, none, none)
      processAltAnchors env resolveFinalUrls finalUrl
        (acc ++ [{ url := resolved.1, type := "file_download", name := "Alternative Download",
                   text := a.text, filename := resolved.2.1, contentType := resolved.2.2 }]) rest

/-- The direct/CDN links of a page, optionally resolved: the empty-check and
`map` mirror the `if direct_links:` block of the source. -/
def resolvedDirectLinks (env : GDLEnv) (resolveFinalUrls : Bool) (pg : AdsPage) :
    List LinkDict :=
  if ((pg.directAnchors.filter fun a => a.href ≠ "").map mkDirectLink).isEmpty then []
  else
    ((pg.directAnchors.filter fun a => a.href ≠ "").map mkDirectLink).map
      (resolveDirectLink env resolveFinalUrls)

/-- `_get_final_download_links(mirror, md5_hash)`: fetch the mirror's
`ads.php` page, collect (optionally resolved) direct/CDN links, then verified
primary `get.php` links with verified mirror substitutions, then unverified
alternative `file.php` links.  A failed page fetch or non-200 status yields the
links accumulated so far, which is the empty list. -/
def getFinalDownloadLinks (env : GDLEnv) (resolveFinalUrls : Bool)
    (mirror md5Hash : String) : List LinkDict :=
  match env.page (mirror ++ "/ads.php?md5=" ++ md5Hash) with
  | none => []
  | some pg =>
    if pg.status ≠ 200 then []
    else
      processAltAnchors env resolveFinalUrls pg.finalUrl
        (processGetAnchors env mirror pg.finalUrl
          (resolvedDirectLinks env resolveFinalUrls pg) pg.getAnchors)
        pg.altAnchors

/-- `_get_additional_download_sources(md5_hash)`: the static list of fallback
source URLs built from the hash. -/
def additionalDownloadSources (md5Hash : String) : List LinkDict :=
  (["http://library.lol/main/" ++ md5Hash,
    "https://library.lol/main/" ++ md5Hash,
    "http://libgen.lc/main/" ++ md5Hash,
    "https://libgen.lc/main/" ++ md5Hash,
    "http://libgen.lc/book/index.php?md5=" ++ md5Hash,
    "https://libgen.lc/book/index.php?md5=" ++ md5Hash,
    "http://libgen.lc/get.php?md5=" ++ md5Hash,
    "https://libgen.lc/get.php?md5=" ++ md5Hash].enum.map fun (i, u) =>
      { url := u, type := "library_lol", name := "Library.lol " ++ toString (i + 1),
        text := "Library.lol Variant " ++ toString (i + 1) }) ++
  (["https://annas-archive.org/md5/" ++ md5Hash,
    "https://annas-archive.li/md5/" ++ md5Hash,
    "https://annas-archive.se/md5/" ++ md5Hash,
    "https://annas-archive.org/md5/" ++ md5Hash,
    "https://annas-archive.li/md5/" ++ md5Hash].enum.map fun (i, u) =>
      { url := u, type := "annas_archive", name := "Anna's Archive " ++ toString (i + 1),
        text := "Meta-Search Engine" }) ++
  (["https://z-library.sk/md5/" ++ md5Hash,
    "https://z-lib.org/md5/" ++ md5Hash,
    "https://b-ok.org/md5/" ++ md5Hash,
    "https://booksc.eu/md5/" ++ md5Hash].enum.map fun (i, u) =>
      { url := u, type := "z_library", name := "Z-Library " ++ toString (i + 1),
        text := "Comprehensive Shadow Library" }) ++
  (["https://oceanofpdf.com/?s=" ++ md5Hash,
    "https://oceanofpdf.com/search/" ++ md5Hash].enum.map fun (i, u) =>
      { url := u, type := "ocean_pdf", name := "Ocean of PDF " ++ toString (i + 1),
        text := "Clean Interface" }) ++
  [{ url := "https://liber3.eth.limo/search?q=" ++ md5Hash, type := "liber3",
     name := "Liber3", text := "Fast & Ad-Free" }] ++
  (["https://library.memoryoftheworld.org/search?q=" ++ md5Hash,
    "https://library.memoryoftheworld.org/md5/" ++ md5Hash].enum.map fun (i, u) =>
      { url := u, type := "memory_world", name := "Memory of the World " ++ toString (i + 1),
        text := "Minimal Overhead" }) ++
  (["https://sci-hub.se/" ++ md5Hash,
    "https://sci-hub.st/" ++ md5Hash,
    "https://sci-hub.ru/" ++ md5Hash].enum.map fun (i, u) =>
      { url := u, type := "scihub", name := "Sci-Hub " ++ toString (i + 1),
        text := "Academic Papers" }) ++
  (["https://libgen.lc/get.php?md5=" ++ md5Hash,
    "http://libgen.lc/get.php?md5=" ++ md5Hash,
    "https://library.lol/get.php?md5=" ++ md5Hash,
    "http://library.lol/get.php?md5=" ++ md5Hash].enum.map fun (i, u) =>
      { url := u, type := "direct_download", name := "Direct Download " ++ toString (i + 1),
        text := "Direct File Access" }) ++
  (["https://libgen.li/book/index.php?md5=" ++ md5Hash,
    "https://libgen.la/book/index.php?md5=" ++ md5Hash,
    "https://libgen.gl/book/index.php?md5=" ++ md5Hash,
    "https://libgen.vg/book/index.php?md5=" ++ md5Hash,
    "https://libgen.bz/book/index.php?md5=" ++ md5Hash,
    "https://libgen.is/book/index.php?md5=" ++ md5Hash,
    "http://libgen.rs/book/index.php?md5=" ++ md5Hash,
    "http://gen.lib.rus.ec/book/index.php?md5=" ++ md5Hash,
    "https://libgen.fun/book/index.php?md5=" ++ md5Hash].map fun u =>
      { url := u, type := "libgen_direct", name := "LibGen Direct", text := "LibGen Mirror" }) ++
  [{ url := "https://cyberleninka.ru/search?q=" ++ md5Hash, type := "cyberleninka",
     name := "CyberLeninka", text := "Legal Russian Repository" }]

/-- The per-mirror collection loop of `get_download_links`: try the first 5
download mirrors in order, skipping a mirror whose 3-second `wait_for` timed
out or that yielded no links; stop early once at least 8 links have been
collected from at least 2 mirrors.  `timeoutM` marks the mirrors whose attempt
timed out. -/
def gdlMirrorLoop (env : GDLEnv) (timeoutM : String → Bool) (resolveFinalUrls : Bool)
    (md5Hash : String) (acc : List LinkDict) (successful : Nat) :
    List String → List LinkDict
  | [] => acc
  | mirror :: rest =>
    if timeoutM mirror then gdlMirrorLoop env timeoutM resolveFinalUrls md5Hash acc successful rest
    else
      let links := getFinalDownloadLinks env resolveFinalUrls mirror md5Hash
      if links.isEmpty then gdlMirrorLoop env timeoutM resolveFinalUrls md5Hash acc successful rest
      else
        let acc' := acc ++ links
        if 8 ≤ acc'.length && 2 ≤ successful + 1 then acc'
        else gdlMirrorLoop env timeoutM resolveFinalUrls md5Hash acc' (successful + 1) rest

/-- `get_download_links(md5_hash)`: links collected from the first 5 download
mirrors, followed by the additional static sources filtered through
`_test_download_link` — the additional sources are always appended, the
verification preceding their inclusion. -/
def getDownloadLinks (env : GDLEnv) (timeoutM : String → Bool)
    (downloadMirrors : List String) (resolveFinalUrls : Bool)
    (md5Hash : String) : List LinkDict :=
  gdlMirrorLoop env timeoutM resolveFinalUrls md5Hash [] 0 (downloadMirrors.take 5) ++
    (additionalDownloadSources md5Hash).filter fun l => env.verify l.url

/-! ## Mirror registry & reliability tracker
(`_update_mirror_reliability`, `_get_prioritized_mirrors`)

The searcher's mutable dictionaries become association lists, wall-clock
timestamps (`time.time()`) and float scores become rationals.  Dict lookup
with a default is `alistGet`/`getD`; assignment replaces in place or appends. -/

/-- Generic association-list lookup. -/
def alistGet {α : Type} (k : String) : List (String × α) → Option α
  | [] => none
  | (k', v) :: rest => if k' = k then some v else alistGet k rest

/-- Generic association-list assignment: replace the first binding in place, or
append a new binding (Python dict insertion order). -/
def alistSet {α : Type} (k : String) (v : α) : List (String × α) → List (String × α)
  | [] => [(k, v)]
  | (k', v') :: rest => if k' = k then (k, v) :: rest else (k', v') :: alistSet k v rest

/-- The per-mirror record held in `self.mirror_reliability`. -/
structure MirrorStats where
  totalRequests : Nat
  successfulRequests : Nat
  successRate : ℚ
  lastFailure : ℚ
  lastSuccess : ℚ
  deriving DecidableEq, Repr

/-- The fresh record created on a mirror's first recorded outcome. -/
def freshMirrorStats (now : ℚ) : MirrorStats :=
  { totalRequests := 0, successfulRequests := 0, successRate := 1/2,
    lastFailure := 0, lastSuccess := now }

/-- The state of a `LibGenSearcher` instance relevant to the embedded
operations: mirror lists and configuration from `__init__`, the reliability
dictionaries, the failed-mirror set and the result cache. -/
structure SearcherState where
  libgenMirrors : List String
  downloadMirrors : List String
  mirrorReliability : List (String × MirrorStats)
  mirrorResponseTimes : List (String × ℚ)
  failedMirrors : List String
  searchCache : List (String × (List Book × ℚ))
  cacheTtl : ℚ := 300
  maxRetries : Nat := 1
  resolveFinalUrls : Bool := true
  deriving Repr

/-- The per-entry computation of `_update_mirror_reliability`: bump the request
counters, stamp `last_success` (unconditionally, as in the source), stamp
`last_failure` on a failure, and recompute the success rate as the cumulative
ratio of successful to total requests. -/
def updatedMirrorStats (d0 : MirrorStats) (success : Bool) (now : ℚ) : MirrorStats :=
  let d1 := { d0 with totalRequests := d0.totalRequests + 1, lastSuccess := now }
  let d2 :=
    if success then { d1 with successfulRequests := d1.successfulRequests + 1 }
    else { d1 with lastFailure := now }
  { d2 with successRate := (d2.successfulRequests : ℚ) / (d2.totalRequests : ℚ) }

/-- `_update_mirror_reliability(mirror, success, response_time)` at time `now`:
update the mirror's stats entry, mark or clear the failed flag, and fold the
response time into an exponential moving average with weight 0.3. -/
def updateMirrorReliability (st : SearcherState) (mirror : String) (success : Bool)
    (responseTime now : ℚ) : SearcherState :=
  { st with
    mirrorReliability := alistSet mirror
      (updatedMirrorStats ((alistGet mirror st.mirrorReliability).getD (freshMirrorStats now))
        success now)
      st.mirrorReliability
    failedMirrors :=
      if success then st.failedMirrors.filter (· ≠ mirror)
      else if mirror ∈ st.failedMirrors then st.failedMirrors else st.failedMirrors ++ [mirror]
    mirrorResponseTimes :=
      match alistGet mirror st.mirrorResponseTimes with
      | some old => alistSet mirror (7/10 * old + 3/10 * responseTime) st.mirrorResponseTimes
      | none => alistSet mirror responseTime st.mirrorResponseTimes }

/-- `last_failure` with the dict defaults:
`self.mirror_reliability.get(mirror, {}).get('last_failure', 0)`. -/
def lastFailureOf (st : SearcherState) (mirror : String) : ℚ :=
  ((alistGet mirror st.mirrorReliability).map MirrorStats.lastFailure).getD 0

/-- The availability pass of `_get_prioritized_mirrors`: walk the configured
mirrors; one not currently failed is available; a failed one is re-admitted
(and removed from the failed set) only when more than 300 seconds have passed
since its last failure.  Returns the available list and the updated failed
set. -/
def availablePass (st : SearcherState) (now : ℚ) :
    List String → List String → List String × List String
  | failed, [] => ([], failed)
  | failed, mirror :: rest =>
    if mirror ∈ failed then
      if 300 < now - lastFailureOf st mirror then
        let (av, f') := availablePass st now (failed.filter (· ≠ mirror)) rest
        (mirror :: av, f')
      else
        let (av, f') := availablePass st now failed rest
        (av, f')
    else
      let (av, f') := availablePass st now failed rest
      (mirror :: av, f')

/-- The sort key of `_get_prioritized_mirrors`:
`success_rate * 100 - avg_response_time * 0.1`, with the dict defaults 0.5 and
10.0 seconds. -/
def reliabilityScore (st : SearcherState) (mirror : String) : ℚ :=
  let successRate := ((alistGet mirror st.mirrorReliability).map MirrorStats.successRate).getD (1/2)
  let avgResponseTime := (alistGet mirror st.mirrorResponseTimes).getD 10
  successRate * 100 - avgResponseTime * (1/10)

/-- Stable insertion for a descending sort by score: an element goes after
every earlier element whose score is at least as large. -/
def insertScoreDesc (f : String → ℚ) (x : String) : List String → List String
  | [] => [x]
  | y :: ys => if f x < f y then y :: insertScoreDesc f x ys else x :: y :: ys

/-- Stable descending sort by score, modelling Python's stable
`list.sort(key=..., reverse=True)`. -/
def sortScoreDesc (f : String → ℚ) : List String → List String
  | [] => []
  | x :: xs => insertScoreDesc f x (sortScoreDesc f xs)

/-- `_get_prioritized_mirrors()` at time `now`: available mirrors sorted by
reliability score; if fewer than 3 are available, up to 3 of the excluded
mirrors are appended as fallback.  Returns the prioritized list together with
the searcher state carrying the updated failed set. -/
def getPrioritizedMirrors (st : SearcherState) (now : ℚ) :
    List String × SearcherState :=
  let ap := availablePass st now st.failedMirrors st.libgenMirrors
  let sorted := sortScoreDesc (reliabilityScore st) ap.1
  ((if sorted.length < 3 then
      sorted ++ (st.libgenMirrors.filter fun m => m ∉ sorted).take 3
    else sorted),
   { st with failedMirrors := ap.2 })

/-! ## Search orchestrator (`search`, `_search_mirror_async`, `_cleanup_cache`)

`search` is embedded as a state transformer: it takes the searcher state, the
current `time.time()` value and an environment describing what the network
returns for this call, and produces the outcome, the new state and flags
recording what the call did (whether any mirror request was attempted, whether
the MD5 link-resolution path ran, and which mirrors had a failure recorded).
The outcome is an `Except`: the embedded code constructs only `.ok`, there
being no `raise` reaching the caller in the source. -/

/-- `re.match(r'^[a-f0-9]{32}$', query.lower())`: a 32-character lowercase hex
string after case folding; Python's `$` also accepts one trailing newline. -/
def isMd5Query (q : String) : Bool :=
  let cs := (pyLower q).data
  (cs.length = 32 && cs.all isLowerHex) ||
    (cs.length = 33 && cs.getLast? = some '\n' && (cs.take 32).all isLowerHex)

/-- The outcome of one retry iteration inside `_search_mirror_async`: the
request raised, or returned a response with a status code and a body (the body
already abstracted to the rows of its results table). -/
inductive InnerOutcome where
  | raised
  | response (status : Nat) (rows : List (List Cell))
  deriving Repr

/-- The retry loop of `_search_mirror_async`: the first 200 response is parsed
and returned at once — before the reliability update, which therefore runs only
when every retry failed.  Returns the parsed results and whether a (failure)
reliability update was performed. -/
def searchMirrorRetries (uj : String → String → String) (mirror : String) :
    List InnerOutcome → List Book × Bool
  | [] => ([], true)
  | .raised :: rest => searchMirrorRetries uj mirror rest
  | .response status rows :: rest =>
    if status = 200 then (parseSearchResults uj rows mirror, false)
    else searchMirrorRetries uj mirror rest

/-- `_search_mirror_async(mirror, query)` given the outcomes of its (at most
`max_retries`) retry iterations. -/
def searchMirrorAsync (uj : String → String → String) (maxRetries : Nat)
    (mirror : String) (outcomes : List InnerOutcome) : List Book × Bool :=
  searchMirrorRetries uj mirror (outcomes.take maxRetries)

/-- The behaviour of one mirror attempt in `search`'s loop: the 8-second
`asyncio.wait_for` timed out (cancelling `_search_mirror_async` before any
reliability update), or the inner call completed with the given per-retry
outcomes and measured response time. -/
inductive MirrorAttempt where
  | timedOut
  | completed (inner : List InnerOutcome) (responseTime : ℚ)
  deriving Repr

/-- Result of the mirror loop: the winning result list, the threaded searcher
state, and the mirrors on which a failure was recorded. -/
structure LoopResult where
  results : List Book
  state : SearcherState
  recorded : List String
  deriving Repr

/-- The state after one completed mirror attempt: unchanged unless the inner
call recorded a failure. -/
def attemptState (uj : String → String → String) (now rt : ℚ) (st : SearcherState)
    (mirror : String) (inner : List InnerOutcome) : SearcherState :=
  if (searchMirrorAsync uj st.maxRetries mirror inner).2 then
    updateMirrorReliability st mirror false rt now
  else st

/-- The failure log of one completed mirror attempt. -/
def attemptLog (uj : String → String → String) (st : SearcherState)
    (mirror : String) (inner : List InnerOutcome) : List String :=
  if (searchMirrorAsync uj st.maxRetries mirror inner).2 then [mirror] else []

/-- The sequential mirror loop of `search`: try each (mirror, attempt) pair in
order; a timeout or error moves on; the first non-empty parsed result set stops
the loop. -/
def searchLoop (uj : String → String → String) (now : ℚ) :
    SearcherState → List (String × MirrorAttempt) → LoopResult
  | st, [] => ⟨[], st, []⟩
  | st, (_, .timedOut) :: rest => searchLoop uj now st rest
  | st, (mirror, .completed inner rt) :: rest =>
    if (searchMirrorAsync uj st.maxRetries mirror inner).1.isEmpty then
      let r := searchLoop uj now (attemptState uj now rt st mirror inner) rest
      ⟨r.results, r.state, attemptLog uj st mirror inner ++ r.recorded⟩
    else
      ⟨(searchMirrorAsync uj st.maxRetries mirror inner).1,
       attemptState uj now rt st mirror inner,
       attemptLog uj st mirror inner⟩

/-- `_cleanup_cache()`: drop every entry strictly older than the TTL. -/
def cleanupCache (cache : List (String × (List Book × ℚ))) (ttl now : ℚ) :
    List (String × (List Book × ℚ)) :=
  cache.filter fun kv => !(ttl < now - kv.2.2)

/-- Erase one key from the cache (`del self.search_cache[cache_key]`). -/
def cacheErase (k : String) (cache : List (String × (List Book × ℚ))) :
    List (String × (List Book × ℚ)) :=
  cache.filter fun kv => kv.1 ≠ k

/-- The cache key `f"{query.lower().strip()}:{max_results}"`. -/
def cacheKeyOf (query : String) (maxResults : Nat) : String :=
  pyStrip (pyLower query) ++ ":" ++ toString maxResults

/-- The error a `search` call could surface; the embedded code never
constructs it. -/
inductive SearchError where
  | transport
  deriving DecidableEq, Repr

/-- What a `search` call produced. -/
structure SearchResultT where
  outcome : Except SearchError (List Book)
  state : SearcherState
  networkAttempted : Bool
  resolveCalled : Bool
  recorded : List String
  deriving Repr

/-- The environment of one `search` call: the resolver oracles for the MD5
shortcut path and the behaviour of each mirror attempt of the sequential loop
(position `i` describes the `i`-th attempted mirror). -/
structure SearchEnv where
  gdl : GDLEnv
  gdlTimeouts : String → Bool
  attempts : List MirrorAttempt

/-- The synthetic book entry built for an MD5-hash query with resolvable
links. -/
def md5BookEntry (query : String) (links : List LinkDict) : Book :=
  { title := "Book with MD5: " ++ query, author := "Unknown", year := "Unknown",
    extension := "Unknown", size := "Unknown", md5 := some query,
    downloadLinks := links }

/-- The cache-miss tail of `search`: try the first five prioritized mirrors
sequentially, deduplicate and truncate the winning result list, write it to the
cache under `key` and clean up expired entries. -/
def searchMissResult (uj : String → String → String) (env : SearchEnv)
    (st1 : SearcherState) (key : String) (maxResults : Nat) (now : ℚ) :
    SearchResultT :=
  let prio := getPrioritizedMirrors st1 now
  let lr := searchLoop uj now prio.2 ((prio.1.take 5).zip env.attempts)
  let finalResults := (removeDuplicates lr.results).take maxResults
  ⟨.ok finalResults,
   { lr.state with
      searchCache :=
        cleanupCache (alistSet key (finalResults, now) lr.state.searchCache)
          lr.state.cacheTtl now },
   true, false, lr.recorded⟩

/-- `search(query, max_results)` at time `now`.
An MD5-hash query goes straight to `get_download_links` and touches neither the
cache nor the mirror loop.  Otherwise the cache is consulted (an unexpired
entry is returned with no network attempt; an expired entry is deleted), then
the first five prioritized mirrors are tried sequentially, the winning result
list is deduplicated, truncated to `max_results`, written to the cache and the
cache is cleaned up. -/
def searchModel (uj : String → String → String) (env : SearchEnv)
    (st : SearcherState) (query : String) (maxResults : Nat) (now : ℚ) :
    SearchResultT :=
  if isMd5Query query then
    let links := getDownloadLinks env.gdl env.gdlTimeouts st.downloadMirrors
      st.resolveFinalUrls query
    if links.isEmpty then
      ⟨.ok [], st, false, true, []⟩
    else
      ⟨.ok [md5BookEntry query links], st, false, true, []⟩
  else
    match alistGet (cacheKeyOf query maxResults) st.searchCache with
    | some (cachedData, cacheTime) =>
      if now - cacheTime < st.cacheTtl then ⟨.ok cachedData, st, false, false, []⟩
      else
        searchMissResult uj env
          { st with searchCache := cacheErase (cacheKeyOf query maxResults) st.searchCache }
          (cacheKeyOf query maxResults) maxResults now
    | none => searchMissResult uj env st (cacheKeyOf query maxResults) maxResults now

/-! ## Concurrent fetcher (`ConcurrentFileHandler`)

`_download_file_sync` is embedded over an abstract HTTP response: status code,
declared headers and the chunk sequence yielded by `iter_content` (bytes as
naturals).  The `magic.from_buffer` signature sniffer is an oracle from byte
content to MIME string.  The configured byte bounds are carried directly
(`min_size_bytes` / `max_size_bytes`, the integers computed in `__init__`). -/

/-- The response obtained for a download URL.  `declaredContentType` is the
`Content-Type` header, which `_download_file_sync` never consults. -/
structure HttpResponse where
  status : Nat
  contentLength : Option Nat
  declaredContentType : String
  chunks : List (List Nat)
  deriving DecidableEq, Repr

/-- Byte-size configuration of `ConcurrentFileHandler`. -/
structure FHConfig where
  minSizeBytes : Nat
  maxSizeBytes : Nat
  deriving DecidableEq, Repr

/-- The `VALID_EXTENSIONS` table. -/
def VALID_EXTENSIONS : List (String × List String) :=
  [("pdf", ["application/pdf"]),
   ("epub", ["application/epub+zip", "application/x-epub+zip"]),
   ("mobi", ["application/x-mobipocket-ebook", "application/vnd.amazon.ebook"]),
   ("azw3", ["application/vnd.amazon.ebook"]),
   ("djvu", ["image/vnd.djvu", "image/x-djvu"]),
   ("txt", ["text/plain"]),
   ("doc", ["application/msword"]),
   ("docx", ["application/vnd.openxmlformats-officedocument.wordprocessingml.document"]),
   ("rtf", ["application/rtf", "text/rtf"]),
   ("fb2", ["application/x-fictionbook+xml", "text/xml"]),
   ("lit", ["application/x-ms-reader"]),
   ("pdb", ["application/vnd.palm", "application/x-palm-database"]),
   ("chm", ["application/vnd.ms-htmlhelp", "application/x-chm"])]

/-- `_get_extension_from_mime(mime_type)`: the first extension whose MIME list
contains the type. -/
def getExtensionFromMime (mimeType : String) : Option String :=
  (VALID_EXTENSIONS.find? fun em => mimeType ∈ em.2).map Prod.fst

/-- The streaming accumulation of `iter_content` chunks: empty chunks are
skipped, the running total is checked against the maximum after each chunk, and
exceeding it aborts the download (`none`). -/
def streamChunks (maxSizeBytes : Nat) (downloaded : Nat) : List (List Nat) → Option Nat
  | [] => some downloaded
  | chunk :: rest =>
    if chunk.isEmpty then streamChunks maxSizeBytes downloaded rest
    else
      let downloaded' := downloaded + chunk.length
      if maxSizeBytes < downloaded' then none
      else streamChunks maxSizeBytes downloaded' rest

/-- The file dict returned by a successful `_download_file_sync` (the
`BytesIO` buffer itself is represented by its byte content). -/
structure FileResult where
  data : List Nat
  filename : String
  size : Nat
  extension : String
  mimeType : String
  deriving DecidableEq, Repr

/-- `re.sub(r'[^\w\-_\.]', '_', filename)` (ASCII fragment of `\w`). -/
def cleanFilename (s : String) : String :=
  String.mk (s.toList.map fun c =>
    if isWordChar c || c = '-' || c = '.' then c else '_')

/-- The name part of `os.path.splitext(basename)`: cut at the last `.` that is
not part of a leading run of dots. -/
def splitextName (basename : String) : String :=
  let cs := basename.toList
  let lead := (cs.takeWhile (· = '.')).length
  match ((cs.enum.filter fun p => p.2 = '.' && lead ≤ p.1).map Prod.fst).getLast? with
  | some i => String.mk (cs.take i)
  | none => basename

/-- `_generate_filename(url, extension, task_id)`: basename of the URL path,
re-extended (or the `book_<task>.<ext>` fallback), then cleaned of
non-word characters. -/
def generateFilename (url extension taskId : String) : String :=
  let path := urlPath url
  let basename := (((splitOnL path "/").getLast?)).getD ""
  let filename :=
    if basename = "" || !containsSub basename "." then
      "book_" ++ taskId ++ "." ++ extension
    else
      splitextName basename ++ "." ++ extension
  cleanFilename filename

/-- The declared `Content-Length` check of `_download_file_sync`: when the
header is present, the declared size must lie within the configured bounds. -/
def contentLengthOk (cfg : FHConfig) : Option Nat → Bool
  | some size => decide (cfg.minSizeBytes ≤ size) && decide (size ≤ cfg.maxSizeBytes)
  | none => true

/-- The body of `_download_file_sync` once a response was obtained.  A non-200
status, a declared `Content-Length` outside `[min_size_bytes, max_size_bytes]`,
a streamed size outside the same bounds, or a sniffed MIME type without a valid
extension all yield `none`; otherwise the file dict is returned.  `sniff` is
`magic.from_buffer(..., mime=True)` on the downloaded bytes. -/
def downloadFileFromResponse (cfg : FHConfig) (sniff : List Nat → String)
    (r : HttpResponse) (url taskId : String) : Option FileResult :=
  if r.status ≠ 200 then none
  else if !contentLengthOk cfg r.contentLength then none
  else
    match streamChunks cfg.maxSizeBytes 0 r.chunks with
    | none => none
    | some downloaded =>
      if downloaded < cfg.minSizeBytes then none
      else
        match getExtensionFromMime (sniff r.chunks.flatten) with
        | none => none
        | some extension =>
          some { data := r.chunks.flatten,
                 filename := generateFilename url extension taskId,
                 size := downloaded, extension := extension,
                 mimeType := sniff r.chunks.flatten }

/-- `_download_file_sync(url, task_id)` over the response the network returned
for the URL (`.error` — the request raised). -/
def downloadFileSync (cfg : FHConfig) (sniff : List Nat → String)
    (resp : Except Unit HttpResponse) (url taskId : String) : Option FileResult :=
  match resp with
  | .error _ => none
  | .ok r => downloadFileFromResponse cfg sniff r url taskId

/-- `_get_link_priority(link)`: favored domains first, then generic download
links, then the rest. -/
def getLinkPriority (link : LinkDict) : Nat :=
  let url := pyLower link.url
  if containsSub url "cdn3.booksdl.lc" || containsSub url "libgen.la" ||
      containsSub url "libgen.li" then 1
  else if containsSub url "get.php" || containsSub url "download" then 2
  else 3

/-! ## Definitions used only in the statements of the theorems below -/

/-- The result list an attempt contributes to `search`'s loop: nothing for a
timeout, otherwise what `_search_mirror_async` parsed. -/
def attemptYield (uj : String → String → String) (maxRetries : Nat) :
    String × MirrorAttempt → List Book
  | (_, .timedOut) => []
  | (mirror, .completed inner _) => (searchMirrorAsync uj maxRetries mirror inner).1

/-- Modelled from the spec: "Score update uses an exponential moving average
with weight 0.3 for new samples" — the update rule the spec ascribes to the
reliability score, stated for comparison with the code's update. -/
def emaSpecUpdate (old sample : ℚ) : ℚ :=
  7/10 * old + 3/10 * sample

/-- Well-formedness of the reliability table: counters are consistent and every
stored success rate lies in `[0, 1]`. -/
def StatsWF (st : SearcherState) : Prop :=
  ∀ p ∈ st.mirrorReliability,
    p.2.successfulRequests ≤ p.2.totalRequests ∧ 0 ≤ p.2.successRate ∧ p.2.successRate ≤ 1

/-! ## Concrete fixtures for counterexamples and witnesses -/

/-- A urljoin instance for concrete runs: absolute references stand, relative
ones are appended to the base. -/
def uj0 (base rel : String) : String :=
  if strStartsWith rel "http" then rel else base ++ "/" ++ rel

/-- A 32-character lowercase hex hash used by the concrete fixtures. -/
def hash32 : String := "0123456789abcdef0123456789abcdef"

/-- A well-formed 9-column result row for the book 1984. -/
def row1984 : List Cell :=
  [⟨"1984", "1984", "<td>1984</td>", [⟨"edition.php?id=1", "1984"⟩]⟩,
   ⟨"George Orwell", "George Orwell", "<td>George Orwell</td>", []⟩,
   ⟨"Secker and Warburg", "Secker and Warburg", "<td>Secker and Warburg</td>", []⟩,
   ⟨"1949", "1949", "<td>1949</td>", []⟩,
   ⟨"English", "English", "<td>English</td>", []⟩,
   ⟨"328", "328", "<td>328</td>", []⟩,
   ⟨"1 MB", "1 MB", "<td>1 MB</td>", []⟩,
   ⟨"pdf", "pdf", "<td>pdf</td>", []⟩,
   ⟨"[1]", "[1]", "<td>[1]</td>", [⟨"https://libgen.la/ads.php?md5=" ++ hash32, "[1]"⟩]⟩]

/-- A malformed row with fewer than 9 cells. -/
def rowShort : List Cell :=
  [⟨"x", "x", "<td>x</td>", []⟩]

/-- The record the parser yields for `row1984`. -/
def book1984 : Book :=
  { title := "1984", author := "George Orwell", publisher := "Secker and Warburg",
    year := "1949", language := "English", pages := "328", size := "1 MB",
    extension := "pdf", md5 := some hash32,
    mirrors := [⟨"https://libgen.la/ads.php?md5=" ++ hash32, "libgen_mirror_1",
                 "LibGen Mirror 1"⟩] }

/-- A detail page carrying only an alternative `/file.php` link. -/
def c1PageAlt : AdsPage :=
  { status := 200, finalUrl := "https://libgen.la/ads.php?md5=" ++ hash32,
    directAnchors := [], getAnchors := [],
    altAnchors := [⟨"http://files.example/file.php?id=123", "GET"⟩] }

/-- An environment whose verification check fails for every URL and which
serves `c1PageAlt` for the libgen.la ads page. -/
def c1EnvFalse : GDLEnv :=
  { page := fun u => if u = "https://libgen.la/ads.php?md5=" ++ hash32 then some c1PageAlt else none,
    verify := fun _ => false, resolve := fun _ => none, urljoin := uj0 }

/-- A detail page carrying one canonical `get.php` link. -/
def c1PageGet : AdsPage :=
  { status := 200, finalUrl := "https://libgen.la/ads.php?md5=" ++ hash32,
    directAnchors := [],
    getAnchors := [⟨"https://libgen.la/get.php?md5=" ++ hash32 ++ "&key=abcd", "GET"⟩],
    altAnchors := [] }

/-- An environment whose verification check succeeds for every URL and which
serves `c1PageGet` for the libgen.la ads page. -/
def c1EnvTrue : GDLEnv :=
  { page := fun u => if u = "https://libgen.la/ads.php?md5=" ++ hash32 then some c1PageGet else none,
    verify := fun _ => true, resolve := fun _ => none, urljoin := uj0 }

/-- The verified primary link `_get_final_download_links` yields for
`c1PageGet`. -/
def c1PrimaryLink : LinkDict :=
  { url := "https://libgen.la/get.php?md5=" ++ hash32 ++ "&key=abcd",
    type := "direct_download", name := "Direct Download", text := "GET" }

/-- A byte-bound configuration for concrete fetcher runs. -/
def c4Cfg : FHConfig := ⟨2, 10⟩

/-- A signature sniffer for concrete runs: the PDF signature bytes sniff as
PDF, everything else as HTML. -/
def c4Sniff : List Nat → String :=
  fun b => if b = [37, 80, 68, 70] then "application/pdf" else "text/html"

/-- A 4-byte PDF response (declared and actual type agree). -/
def c4Resp : HttpResponse :=
  { status := 200, contentLength := some 4, declaredContentType := "application/pdf",
    chunks := [[37, 80], [68, 70]] }

/-- A response whose header declares PDF but whose bytes sniff as HTML. -/
def c4RespHtml : HttpResponse :=
  { status := 200, contentLength := none, declaredContentType := "application/pdf",
    chunks := [[60, 104, 116, 109, 108]] }

/-- The file dict `_download_file_sync` returns for `c4Resp`. -/
def c4Out : FileResult :=
  { data := [37, 80, 68, 70], filename := "a.pdf", size := 4, extension := "pdf",
    mimeType := "application/pdf" }

/-- A fresh searcher state with four configured catalog mirrors. -/
def c6St0 : SearcherState :=
  { libgenMirrors := ["https://libgen.la", "https://libgen.li", "https://libgen.gl",
                      "https://libgen.vg"],
    downloadMirrors := [], mirrorReliability := [], mirrorResponseTimes := [],
    failedMirrors := [], searchCache := [] }

/-- `c6St0` after a single recorded failure of libgen.la at time 100. -/
def c6St1 : SearcherState :=
  updateMirrorReliability c6St0 "https://libgen.la" false 1 100

/-- `c6St0` after a single recorded failure of libgen.la at time 0. -/
def c6St2 : SearcherState :=
  updateMirrorReliability c6St0 "https://libgen.la" false 1 0

/-- `c6St0` after a successful request to libgen.la with a 2-second response
time. -/
def c8St1 : SearcherState :=
  updateMirrorReliability c6St0 "https://libgen.la" true 2 10

/-- A resolver environment whose network answers nothing. -/
def gdlTrivial : GDLEnv :=
  { page := fun _ => none, verify := fun _ => false, resolve := fun _ => none, urljoin := uj0 }

/-- A fresh searcher state with a single catalog mirror. -/
def c3St : SearcherState :=
  { libgenMirrors := ["https://libgen.la"], downloadMirrors := [],
    mirrorReliability := [], mirrorResponseTimes := [], failedMirrors := [],
    searchCache := [] }

/-- A search environment whose single mirror attempt succeeds with the 1984
row. -/
def c3Env : SearchEnv :=
  { gdl := gdlTrivial, gdlTimeouts := fun _ => false,
    attempts := [.completed [.response 200 [row1984]] 1] }

/-- A fresh searcher state with two catalog mirrors. -/
def c5St : SearcherState :=
  { libgenMirrors := ["https://libgen.la", "https://libgen.li"], downloadMirrors := [],
    mirrorReliability := [], mirrorResponseTimes := [], failedMirrors := [],
    searchCache := [] }

/-- A search environment whose first mirror attempt times out and whose second
succeeds with the 1984 row. -/
def c5Env : SearchEnv :=
  { gdl := gdlTrivial, gdlTimeouts := fun _ => false,
    attempts := [.timedOut, .completed [.response 200 [row1984]] 2] }

/-- A search environment whose single mirror attempt fails at the transport
level. -/
def c7Env : SearchEnv :=
  { gdl := gdlTrivial, gdlTimeouts := fun _ => false,
    attempts := [.completed [.raised] 1] }

/-- Two records with the same title and author but different non-empty
hashes. -/
def bookHashA : Book :=
  { title := "Same Title", author := "Same Author",
    md5 := some "aaaaaaaaaaaaaaaaaaaaaaaaaaaaaaaa" }

/-- See `bookHashA`. -/
def bookHashB : Book :=
  { title := "Same Title", author := "Same Author",
    md5 := some "bbbbbbbbbbbbbbbbbbbbbbbbbbbbbbbb" }

/-! ## Theorems -/

/-! ### Deduplicator -/

theorem removeDuplicatesGo_sublist (l : List Book) :
    ∀ sm sb, (removeDuplicatesGo sm sb l).Sublist l := by
  induction l with
  | nil => intro sm sb; simp [removeDuplicatesGo]
  | cons b rest ih =>
    intro sm sb
    simp only [removeDuplicatesGo]
    cases hb : bookMd5 b with
    | some h =>
      by_cases h1 : h ∈ sm
      · simp only [if_pos h1]
        exact (ih sm sb).cons b
      · simp only [if_neg h1]
        by_cases h2 : bookKey b ∈ sb
        · simp only [if_pos h2]
          exact (ih _ sb).cons b
        · simp only [if_neg h2]
          exact (ih _ _).cons₂ b
    | none =>
      by_cases h2 : bookKey b ∈ sb
      · simp only [if_pos h2]
        exact (ih sm _).cons b
      · simp only [if_neg h2]
        exact (ih sm _).cons₂ b

theorem removeDuplicatesGo_unseen (l : List Book) :
    ∀ sm sb b, b ∈ removeDuplicatesGo sm sb l →
      (∀ h, bookMd5 b = some h → h ∉ sm) ∧ bookKey b ∉ sb := by
  induction l with
  | nil => intro sm sb b hmem; simp [removeDuplicatesGo] at hmem
  | cons a rest ih =>
    intro sm sb b hmem
    cases ha : bookMd5 a with
    | some h =>
      simp only [removeDuplicatesGo, ha] at hmem
      by_cases h1 : h ∈ sm
      · rw [if_pos h1] at hmem
        exact ih sm sb b hmem
      · rw [if_neg h1] at hmem
        by_cases h2 : bookKey a ∈ sb
        · rw [if_pos h2] at hmem
          have := ih _ sb b hmem
          exact ⟨fun h' hh' => fun hmem' => this.1 h' hh' (List.mem_cons_of_mem _ hmem'), this.2⟩
        · rw [if_neg h2] at hmem
          rcases List.mem_cons.mp hmem with rfl | hmem'
          · refine ⟨fun h' hh' => ?_, h2⟩
            rw [ha] at hh'
            cases hh'
            exact h1
          · have := ih _ _ b hmem'
            refine ⟨fun h' hh' hin => this.1 h' hh' (List.mem_cons_of_mem _ hin), fun hin => this.2 (List.mem_cons_of_mem _ hin)⟩
    | none =>
      simp only [removeDuplicatesGo, ha] at hmem
      by_cases h2 : bookKey a ∈ sb
      · rw [if_pos h2] at hmem
        exact ih sm sb b hmem
      · rw [if_neg h2] at hmem
        rcases List.mem_cons.mp hmem with rfl | hmem'
        · refine ⟨fun h' hh' => ?_, h2⟩
          rw [ha] at hh'
          cases hh'
        · have := ih sm _ b hmem'
          exact ⟨this.1, fun hin => this.2 (List.mem_cons_of_mem _ hin)⟩

theorem removeDuplicatesGo_pairwise (l : List Book) :
    ∀ sm sb, (removeDuplicatesGo sm sb l).Pairwise fun a b =>
      (∀ h, bookMd5 a = some h → bookMd5 b ≠ some h) ∧ bookKey a ≠ bookKey b := by
  induction l with
  | nil => intro sm sb; simp [removeDuplicatesGo]
  | cons a rest ih =>
    intro sm sb
    simp only [removeDuplicatesGo]
    cases ha : bookMd5 a with
    | some h =>
      by_cases h1 : h ∈ sm
      · simpa only [if_pos h1] using ih sm sb
      · simp only [if_neg h1]
        by_cases h2 : bookKey a ∈ sb
        · simpa only [if_pos h2] using ih _ sb
        · simp only [if_neg h2]
          refine List.Pairwise.cons (fun b hb => ?_) (ih _ _)
          have hu := removeDuplicatesGo_unseen rest _ _ b hb
          refine ⟨fun h' hh' hbb => ?_, fun hk => hu.2 (hk ▸ List.mem_cons_self _ _)⟩
          rw [ha] at hh'
          cases hh'
          exact hu.1 _ hbb (List.mem_cons_self _ _)
    | none =>
      by_cases h2 : bookKey a ∈ sb
      · simpa only [if_pos h2] using ih sm sb
      · simp only [if_neg h2]
        refine List.Pairwise.cons (fun b hb => ?_) (ih sm _)
        have hu := removeDuplicatesGo_unseen rest _ _ b hb
        refine ⟨fun h' hh' => ?_, fun hk => hu.2 (hk ▸ List.mem_cons_self _ _)⟩
        rw [ha] at hh'
        cases hh'

/-- C2: deduplication is order-preserving on first occurrence and keeps records
unchanged (the output is a sublist of the input), no two output records share a
non-empty MD5, and no two output records share the case-folded (title, author)
key — the latter holding for every record, hashed or not (see the
counterexample for the divergence from the claim's "only when no hash is
present"). -/
theorem removeDuplicates_dual_key_dedup (l : List Book) :
    (removeDuplicates l).Sublist l ∧
    ((removeDuplicates l).Pairwise fun a b => ∀ h, bookMd5 a = some h → bookMd5 b ≠ some h) ∧
    ((removeDuplicates l).Pairwise fun a b => bookKey a ≠ bookKey b) :=
  ⟨removeDuplicatesGo_sublist l [] [],
   (removeDuplicatesGo_pairwise l [] []).imp fun h => h.1,
   (removeDuplicatesGo_pairwise l [] []).imp fun h => h.2⟩

/-- C2 counterexample: two records with the same title and author but distinct
non-empty hashes — the claim says the (title, author) key applies only when no
hash is present, so both should survive, but `_remove_duplicates` drops the
second. -/
theorem removeDuplicates_title_key_despite_hash :
    removeDuplicates [bookHashA, bookHashB] = [bookHashA] ∧
    bookMd5 bookHashA = some "aaaaaaaaaaaaaaaaaaaaaaaaaaaaaaaa" ∧
    bookMd5 bookHashB = some "bbbbbbbbbbbbbbbbbbbbbbbbbbbbbbbb" := by
  decide

/-! ### Result parser -/

theorem parseRow_title_ne_empty (uj : String → String → String) (baseUrl : String)
    (cells : List Cell) (b : Book) (h : parseRow uj baseUrl cells = some b) :
    b.title ≠ "" := by
  unfold parseRow at h
  split at h
  · split at h
    · rename_i hne
      cases h
      exact hne
    · exact Option.noConfusion h
  · exact Option.noConfusion h

theorem parseRow_short (uj : String → String → String) (baseUrl : String)
    (cells : List Cell) (h : cells.length < 9) : parseRow uj baseUrl cells = none := by
  unfold parseRow
  split
  · rename_i c0 c1 c2 c3 c4 c5 c6 c7 c8 rest
    simp only [List.length_cons] at h
    omega
  · rfl

/-- C9: a row is parsed only when it has at least 9 cells — a shorter row is
skipped without affecting the rest of the parse; every yielded record has a
non-empty title; and the two-row scenario (one valid 1984 row, one
column-deficient row) yields exactly the single 1984 record. -/
theorem parser_min_columns_title_scenario :
    (∀ (uj : String → String → String) (rows : List (List Cell)) (baseUrl : String),
        ∀ b ∈ parseSearchResults uj rows baseUrl, b.title ≠ "") ∧
    (∀ (uj : String → String → String) (row : List Cell) (rest : List (List Cell))
        (baseUrl : String), row.length < 9 →
        parseSearchResults uj (row :: rest) baseUrl = parseSearchResults uj rest baseUrl) ∧
    parseSearchResults uj0 [row1984, rowShort] "https://libgen.la" = [book1984] := by
  refine ⟨?_, ?_, by decide⟩
  · intro uj rows baseUrl b hb
    rcases List.mem_filterMap.mp hb with ⟨row, _, hrow⟩
    exact parseRow_title_ne_empty uj baseUrl row b hrow
  · intro uj row rest baseUrl hlen
    simp only [parseSearchResults, List.filterMap_cons, parseRow_short uj baseUrl row hlen]

/-- C9 witness: the general parts of `parser_min_columns_title_scenario`
instantiated at the concrete two-row table. -/
theorem parser_min_columns_title_scenario_witness :
    book1984.title ≠ "" ∧
    parseSearchResults uj0 (rowShort :: [row1984]) "x" = parseSearchResults uj0 [row1984] "x" :=
  ⟨parser_min_columns_title_scenario.1 uj0 [row1984, rowShort] "https://libgen.la" book1984
      (by decide),
   parser_min_columns_title_scenario.2.1 uj0 rowShort [row1984] "x" (by decide)⟩

/-! ### Concurrent fetcher -/

theorem streamChunks_bound (chunks : List (List Nat)) :
    ∀ maxB acc d, streamChunks maxB acc chunks = some d → d ≤ maxB ∨ d = acc := by
  induction chunks with
  | nil => intro maxB acc d h; simp [streamChunks] at h; right; omega
  | cons c rest ih =>
    intro maxB acc d h
    simp only [streamChunks] at h
    by_cases hc : c.isEmpty
    · rw [if_pos hc] at h
      exact ih maxB acc d h
    · rw [if_neg hc] at h
      by_cases hm : maxB < acc + c.length
      · rw [if_pos hm] at h
        exact Option.noConfusion h
      · rw [if_neg hm] at h
        rcases ih maxB _ d h with h' | h'
        · exact Or.inl h'
        · left; omega

/-- C4: a file dict returned by `_download_file_sync` always has its downloaded
size within `[min_size_bytes, max_size_bytes]` and a MIME type, obtained by
sniffing the downloaded bytes, that belongs to the allowed document-format
table; a body sniffing as HTML is always rejected; and the declared
`Content-Type` header never influences the outcome. -/
theorem downloadFileSync_size_type_validated :
    (∀ (cfg : FHConfig) (sniff : List Nat → String) (r : HttpResponse) (url taskId : String)
        (out : FileResult), downloadFileSync cfg sniff (.ok r) url taskId = some out →
        cfg.minSizeBytes ≤ out.size ∧ out.size ≤ cfg.maxSizeBytes ∧
        out.mimeType = sniff r.chunks.flatten ∧
        getExtensionFromMime out.mimeType = some out.extension ∧
        ∃ mimes, (out.extension, mimes) ∈ VALID_EXTENSIONS ∧ out.mimeType ∈ mimes) ∧
    (∀ (cfg : FHConfig) (sniff : List Nat → String) (r : HttpResponse) (url taskId : String),
        sniff r.chunks.flatten = "text/html" →
        downloadFileSync cfg sniff (.ok r) url taskId = none) ∧
    (∀ (cfg : FHConfig) (sniff : List Nat → String) (r : HttpResponse) (ct url taskId : String),
        downloadFileSync cfg sniff (.ok { r with declaredContentType := ct }) url taskId =
          downloadFileSync cfg sniff (.ok r) url taskId) := by
  refine ⟨?_, ?_, fun cfg sniff r ct url taskId => rfl⟩
  · intro cfg sniff r url taskId out h
    replace h : downloadFileFromResponse cfg sniff r url taskId = some out := h
    unfold downloadFileFromResponse at h
    split at h
    · exact Option.noConfusion h
    · split at h
      · exact Option.noConfusion h
      · split at h
        · exact Option.noConfusion h
        · rename_i downloaded hstream
          split at h
          · exact Option.noConfusion h
          · rename_i hmin
            split at h
            · exact Option.noConfusion h
            · rename_i ext hext
              cases h
              dsimp only
              refine ⟨by omega, ?_, rfl, hext, ?_⟩
              · rcases streamChunks_bound r.chunks cfg.maxSizeBytes 0 _ hstream with h' | h'
                · exact h'
                · omega
              · unfold getExtensionFromMime at hext
                rcases Option.map_eq_some'.mp hext with ⟨em, hfind, hfst⟩
                refine ⟨em.2, ?_, ?_⟩
                · rw [← hfst]
                  exact List.mem_of_find?_eq_some hfind
                · have := List.find?_some hfind
                  exact of_decide_eq_true this
  · intro cfg sniff r url taskId hsn
    show downloadFileFromResponse cfg sniff r url taskId = none
    unfold downloadFileFromResponse
    split
    · rfl
    · split
      · rfl
      · split
        · rfl
        · split
          · rfl
          · split
            · rfl
            · rename_i ext hext
              rw [hsn] at hext
              have hnone : getExtensionFromMime "text/html" = none := by decide
              rw [hnone] at hext
              exact Option.noConfusion hext

/-- C4 witness: the validated-result part at a concrete PDF response, and the
HTML-rejection part at a response whose header declares PDF but whose bytes are
an HTML page. -/
theorem downloadFileSync_size_type_validated_witness :
    (c4Cfg.minSizeBytes ≤ c4Out.size ∧ c4Out.size ≤ c4Cfg.maxSizeBytes ∧
      c4Out.mimeType = c4Sniff c4Resp.chunks.flatten ∧
      getExtensionFromMime c4Out.mimeType = some c4Out.extension ∧
      ∃ mimes, (c4Out.extension, mimes) ∈ VALID_EXTENSIONS ∧ c4Out.mimeType ∈ mimes) ∧
    downloadFileSync c4Cfg c4Sniff (.ok c4RespHtml) "http://x/err.pdf" "1" = none :=
  ⟨downloadFileSync_size_type_validated.1 c4Cfg c4Sniff c4Resp "http://x/a.pdf" "1" c4Out
      (by decide),
   downloadFileSync_size_type_validated.2.1 c4Cfg c4Sniff c4RespHtml "http://x/err.pdf" "1"
      (by decide)⟩

/-! ### Link resolver -/

theorem substitutedMirrorLinks_mem (env : GDLEnv) (mirror md5v keyv dom : String)
    (l : LinkDict) (h : l ∈ substitutedMirrorLinks env mirror md5v keyv dom) :
    l.type = "mirror_download" ∧ env.verify l.url = true := by
  simp only [substitutedMirrorLinks, List.mem_filterMap] at h
  rcases h with ⟨om, _, hsome⟩
  split at hsome
  · split at hsome
    · rename_i hv
      cases hsome
      exact ⟨rfl, hv⟩
    · exact Option.noConfusion hsome
  · exact Option.noConfusion hsome

theorem resolveDirectLink_type (env : GDLEnv) (rf : Bool) (dl : LinkDict) :
    (resolveDirectLink env rf dl).type = dl.type := by
  unfold resolveDirectLink
  split
  · split <;> rfl
  · rfl

theorem getAnchorStepU_mem (env : GDLEnv) (mirror : String) (acc : List LinkDict)
    (text u : String) (l : LinkDict)
    (h : l ∈ (getAnchorStepU env mirror acc text u).1) :
    l ∈ acc ∨ ((l.type = "direct_download" ∨ l.type = "mirror_download") ∧
      env.verify l.url = true) := by
  simp only [getAnchorStepU] at h
  have hacc1 : ∀ l' : LinkDict, l' ∈ (if env.verify u then
      acc ++ [{ url := u, type := "direct_download", name := "Direct Download",
                text := text }] else acc) →
      l' ∈ acc ∨ ((l'.type = "direct_download" ∨ l'.type = "mirror_download") ∧
        env.verify l'.url = true) := by
    intro l' hl'
    split at hl'
    · rename_i hv
      rcases List.mem_append.mp hl' with h' | h'
      · exact Or.inl h'
      · rcases List.mem_singleton.mp h' with rfl
        exact Or.inr ⟨Or.inl rfl, hv⟩
    · exact Or.inl hl'
  split at h
  · split at h
    · dsimp only at h
      rcases List.mem_append.mp h with h' | h'
      · exact hacc1 l h'
      · have := substitutedMirrorLinks_mem env mirror _ _ _ l (List.mem_of_mem_take h')
        exact Or.inr ⟨Or.inr this.1, this.2⟩
    · exact hacc1 l h
  · exact hacc1 l h

theorem getAnchorStep_mem (env : GDLEnv) (mirror finalUrl : String)
    (acc : List LinkDict) (a : Anchor) (l : LinkDict)
    (h : l ∈ (getAnchorStep env mirror finalUrl acc a).1) :
    l ∈ acc ∨ ((l.type = "direct_download" ∨ l.type = "mirror_download") ∧
      env.verify l.url = true) :=
  getAnchorStepU_mem env mirror acc a.text _ l h

theorem processGetAnchors_mem (env : GDLEnv) (mirror finalUrl : String)
    (anchors : List Anchor) :
    ∀ acc l, l ∈ processGetAnchors env mirror finalUrl acc anchors →
      l ∈ acc ∨ ((l.type = "direct_download" ∨ l.type = "mirror_download") ∧
        env.verify l.url = true) := by
  induction anchors with
  | nil => intro acc l h; exact Or.inl h
  | cons a rest ih =>
    intro acc l h
    simp only [processGetAnchors] at h
    split at h
    · exact ih acc l h
    · split at h
      · exact getAnchorStep_mem env mirror finalUrl acc a l h
      · rcases ih _ l h with h' | h'
        · exact getAnchorStep_mem env mirror finalUrl acc a l h'
        · exact Or.inr h'

theorem processAltAnchors_mem (env : GDLEnv) (rf : Bool) (finalUrl : String)
    (anchors : List Anchor) :
    ∀ acc l, l ∈ processAltAnchors env rf finalUrl acc anchors →
      l ∈ acc ∨ l.type = "file_download" := by
  induction anchors with
  | nil => intro acc l h; exact Or.inl h
  | cons a rest ih =>
    intro acc l h
    simp only [processAltAnchors] at h
    split at h
    · exact ih acc l h
    · rcases ih _ l h with h' | h'
      · rcases List.mem_append.mp h' with h'' | h''
        · exact Or.inl h''
        · rcases List.mem_singleton.mp h'' with rfl
          exact Or.inr rfl
      · exact Or.inr h'

theorem resolvedDirectLinks_type (env : GDLEnv) (rf : Bool) (pg : AdsPage)
    (l : LinkDict) (h : l ∈ resolvedDirectLinks env rf pg) :
    l.type = "direct_mirror" := by
  unfold resolvedDirectLinks at h
  split at h
  · exact absurd h (List.not_mem_nil l)
  · rcases List.mem_map.mp h with ⟨dl, hdl, rfl⟩
    rcases List.mem_map.mp hdl with ⟨a, _, rfl⟩
    rw [resolveDirectLink_type]
    rfl

theorem getFinalDownloadLinks_mem (env : GDLEnv) (rf : Bool) (mirror md5h : String)
    (l : LinkDict) (h : l ∈ getFinalDownloadLinks env rf mirror md5h) :
    l.type = "direct_mirror" ∨ l.type = "file_download" ∨
      ((l.type = "direct_download" ∨ l.type = "mirror_download") ∧
        env.verify l.url = true) := by
  unfold getFinalDownloadLinks at h
  split at h
  · exact absurd h (List.not_mem_nil l)
  · split at h
    · exact absurd h (List.not_mem_nil l)
    · rcases processAltAnchors_mem env rf _ _ _ l h with h1 | h1
      · rcases processGetAnchors_mem env mirror _ _ _ l h1 with h2 | h2
        · exact Or.inl (resolvedDirectLinks_type env rf _ l h2)
        · exact Or.inr (Or.inr h2)
      · exact Or.inr (Or.inl h1)

theorem gdlMirrorLoop_mem (env : GDLEnv) (tm : String → Bool) (rf : Bool)
    (md5h : String) (ms : List String) :
    ∀ acc s l, l ∈ gdlMirrorLoop env tm rf md5h acc s ms →
      l ∈ acc ∨ ∃ m, l ∈ getFinalDownloadLinks env rf m md5h := by
  induction ms with
  | nil => intro acc s l h; exact Or.inl h
  | cons mirror rest ih =>
    intro acc s l h
    simp only [gdlMirrorLoop] at h
    split at h
    · exact ih acc s l h
    · split at h
      · exact ih acc s l h
      · split at h
        · rcases List.mem_append.mp h with h' | h'
          · exact Or.inl h'
          · exact Or.inr ⟨mirror, h'⟩
        · rcases ih _ _ l h with h' | h'
          · rcases List.mem_append.mp h' with h'' | h''
            · exact Or.inl h''
            · exact Or.inr ⟨mirror, h''⟩
          · exact Or.inr h'

/-- C1 (amended): a link appearing in the output of `_get_final_download_links`
or `get_download_links` has passed the `_test_download_link` verification check
unless it is a direct/CDN link (type `direct_mirror`) or an alternative
`file.php` link (type `file_download`) — those two kinds are included without
any verification, contrary to the original claim. -/
theorem downloadLinks_verified_by_type :
    (∀ (env : GDLEnv) (rf : Bool) (mirror md5h : String) (l : LinkDict),
        l ∈ getFinalDownloadLinks env rf mirror md5h →
        l.type ≠ "direct_mirror" → l.type ≠ "file_download" →
        env.verify l.url = true) ∧
    (∀ (env : GDLEnv) (tm : String → Bool) (mirrors : List String) (rf : Bool)
        (md5h : String) (l : LinkDict),
        l ∈ getDownloadLinks env tm mirrors rf md5h →
        l.type ≠ "direct_mirror" → l.type ≠ "file_download" →
        env.verify l.url = true) := by
  have main : ∀ (env : GDLEnv) (rf : Bool) (mirror md5h : String) (l : LinkDict),
      l ∈ getFinalDownloadLinks env rf mirror md5h →
      l.type ≠ "direct_mirror" → l.type ≠ "file_download" →
      env.verify l.url = true := by
    intro env rf mirror md5h l h h1 h2
    rcases getFinalDownloadLinks_mem env rf mirror md5h l h with h' | h' | h'
    · exact absurd h' h1
    · exact absurd h' h2
    · exact h'.2
  refine ⟨main, ?_⟩
  intro env tm mirrors rf md5h l h h1 h2
  unfold getDownloadLinks at h
  rcases List.mem_append.mp h with h' | h'
  · rcases gdlMirrorLoop_mem env tm rf md5h _ _ _ l h' with h'' | ⟨m, h''⟩
    · exact absurd h'' (List.not_mem_nil l)
    · exact main env rf m md5h l h'' h1 h2
  · exact (List.mem_filter.mp h').2

/-- C1 counterexample: a detail page whose only link is an alternative
`file.php` link, against an environment whose verification check fails for
every URL — the returned list nevertheless contains that link, so an
unverified link is surfaced. -/
theorem getFinalDownloadLinks_surfaces_unverified :
    getFinalDownloadLinks c1EnvFalse false "https://libgen.la" hash32 =
      [{ url := "http://files.example/file.php?id=123", type := "file_download",
         name := "Alternative Download", text := "GET" }] ∧
    c1EnvFalse.verify "http://files.example/file.php?id=123" = false := by
  decide

/-- C1 witness: the amended theorem applied to a concrete run whose output
contains a verified canonical `get.php` link. -/
theorem downloadLinks_verified_by_type_witness :
    c1EnvTrue.verify c1PrimaryLink.url = true :=
  downloadLinks_verified_by_type.1 c1EnvTrue false "https://libgen.la" hash32 c1PrimaryLink
    (by decide) (by decide) (by decide)

/-! ### Mirror registry & reliability tracker -/

theorem alistGet_mem {α : Type} (k : String) (v : α) :
    ∀ l, alistGet k l = some v → (k, v) ∈ l := by
  intro l
  induction l with
  | nil => intro h; exact Option.noConfusion h
  | cons p rest ih =>
    intro h
    simp only [alistGet] at h
    split at h
    · rename_i heq
      cases h
      cases p
      simp_all
    · exact List.mem_cons_of_mem _ (ih h)

theorem alistSet_mem {α : Type} (k : String) (v : α) :
    ∀ l p, p ∈ alistSet k v l → p = (k, v) ∨ p ∈ l := by
  intro l
  induction l with
  | nil => intro p h; simp only [alistSet] at h; exact Or.inl (List.mem_singleton.mp h)
  | cons q rest ih =>
    intro p h
    simp only [alistSet] at h
    split at h
    · rcases List.mem_cons.mp h with rfl | h'
      · exact Or.inl rfl
      · exact Or.inr (List.mem_cons_of_mem _ h')
    · rcases List.mem_cons.mp h with rfl | h'
      · exact Or.inr (List.mem_cons_self _ _)
      · rcases ih p h' with h'' | h''
        · exact Or.inl h''
        · exact Or.inr (List.mem_cons_of_mem _ h'')

theorem alistGet_set_self {α : Type} (k : String) (v : α) :
    ∀ l, alistGet k (alistSet k v l) = some v := by
  intro l
  induction l with
  | nil => simp [alistSet, alistGet]
  | cons q rest ih =>
    simp only [alistSet]
    split
    · simp [alistGet]
    · rename_i hne
      simp only [alistGet, ih]
      split
      · rename_i heq
        exact absurd heq hne
      · rfl

theorem availablePass_subset (st : SearcherState) (now : ℚ) :
    ∀ (ms failed : List String) (x : String),
      x ∈ (availablePass st now failed ms).2 → x ∈ failed := by
  intro ms
  induction ms with
  | nil => intro failed x h; exact h
  | cons mirror rest ih =>
    intro failed x h
    simp only [availablePass] at h
    split at h
    · split at h
      · exact List.mem_of_mem_filter (ih _ x h)
      · exact ih _ x h
    · exact ih _ x h

theorem availablePass_excluded (st : SearcherState) (now : ℚ) (m : String)
    (hcool : ¬ (300 < now - lastFailureOf st m)) :
    ∀ (ms failed : List String), m ∈ failed →
      m ∉ (availablePass st now failed ms).1 := by
  intro ms
  induction ms with
  | nil => intro failed hm h; simp [availablePass] at h
  | cons mirror rest ih =>
    intro failed hm h
    simp only [availablePass] at h
    split at h
    · rename_i hmf
      split at h
      · rename_i hre
        rcases List.mem_cons.mp h with rfl | h'
        · exact hcool hre
        · exact ih _ (List.mem_filter.mpr ⟨hm, by
            simp only [decide_eq_true_eq]
            intro heq
            exact hcool (heq ▸ hre)⟩) h'
      · exact ih _ hm h
    · rename_i hmf
      rcases List.mem_cons.mp h with rfl | h'
      · exact hmf hm
      · exact ih _ hm h'

theorem availablePass_readmitted (st : SearcherState) (now : ℚ) (m : String)
    (hcool : 300 < now - lastFailureOf st m) :
    ∀ (ms failed : List String), m ∈ failed → m ∈ ms →
      m ∈ (availablePass st now failed ms).1 ∧
        m ∉ (availablePass st now failed ms).2 := by
  intro ms
  induction ms with
  | nil => intro failed hm hms; exact absurd hms (List.not_mem_nil m)
  | cons mirror rest ih =>
    intro failed hm hms
    by_cases heq : mirror = m
    · subst heq
      simp only [availablePass, if_pos hm, if_pos hcool]
      refine ⟨List.mem_cons_self _ _, fun hc => ?_⟩
      have := availablePass_subset st now rest _ _ hc
      rcases List.mem_filter.mp this with ⟨_, hne⟩
      simp at hne
    · have hms' : m ∈ rest := by
        rcases List.mem_cons.mp hms with h' | h'
        · exact absurd h'.symm heq
        · exact h'
      simp only [availablePass]
      split
      · split
        · have hm' : m ∈ failed.filter (· ≠ mirror) :=
            List.mem_filter.mpr ⟨hm, by
              simp only [decide_eq_true_eq]
              exact fun hh => heq hh.symm⟩
          exact ⟨List.mem_cons_of_mem _ (ih _ hm' hms').1, (ih _ hm' hms').2⟩
        · exact ⟨(ih _ hm hms').1, (ih _ hm hms').2⟩
      · exact ⟨List.mem_cons_of_mem _ (ih _ hm hms').1, (ih _ hm hms').2⟩

theorem insertScoreDesc_mem (f : String → ℚ) (x y : String) :
    ∀ l, y ∈ insertScoreDesc f x l ↔ y = x ∨ y ∈ l := by
  intro l
  induction l with
  | nil => simp [insertScoreDesc]
  | cons z rest ih =>
    simp only [insertScoreDesc]
    split
    · simp only [List.mem_cons, ih]
      tauto
    · simp only [List.mem_cons]

theorem sortScoreDesc_mem (f : String → ℚ) (y : String) :
    ∀ l, y ∈ sortScoreDesc f l ↔ y ∈ l := by
  intro l
  induction l with
  | nil => simp [sortScoreDesc]
  | cons x rest ih =>
    simp only [sortScoreDesc, insertScoreDesc_mem, ih, List.mem_cons]

theorem insertScoreDesc_length (f : String → ℚ) (x : String) :
    ∀ l, (insertScoreDesc f x l).length = l.length + 1 := by
  intro l
  induction l with
  | nil => rfl
  | cons z rest ih =>
    simp only [insertScoreDesc]
    split <;> simp [ih]

theorem sortScoreDesc_length (f : String → ℚ) :
    ∀ l, (sortScoreDesc f l).length = l.length := by
  intro l
  induction l with
  | nil => rfl
  | cons x rest ih =>
    simp [sortScoreDesc, insertScoreDesc_length, ih]

theorem excluded_while_cooling (st : SearcherState) (m : String) (now : ℚ)
    (h1 : m ∈ st.failedMirrors) (h2 : ¬ (300 < now - lastFailureOf st m))
    (h3 : 3 ≤ (availablePass st now st.failedMirrors st.libgenMirrors).1.length) :
    m ∉ (getPrioritizedMirrors st now).1 := by
  unfold getPrioritizedMirrors
  have hnotin : m ∉ sortScoreDesc (reliabilityScore st)
      (availablePass st now st.failedMirrors st.libgenMirrors).1 := by
    rw [sortScoreDesc_mem]
    exact availablePass_excluded st now m h2 st.libgenMirrors st.failedMirrors h1
  have hlen : ¬ ((sortScoreDesc (reliabilityScore st)
      (availablePass st now st.failedMirrors st.libgenMirrors).1).length < 3) := by
    rw [sortScoreDesc_length]
    omega
  simp only [if_neg hlen]
  exact hnotin

theorem readmitted_after_cooldown (st : SearcherState) (m : String) (now : ℚ)
    (h1 : m ∈ st.failedMirrors) (h2 : 300 < now - lastFailureOf st m)
    (h3 : m ∈ st.libgenMirrors) :
    m ∈ (getPrioritizedMirrors st now).1 ∧
      m ∉ (getPrioritizedMirrors st now).2.failedMirrors := by
  have hap := availablePass_readmitted st now m h2 st.libgenMirrors st.failedMirrors h1 h3
  simp only [getPrioritizedMirrors]
  constructor
  · have hmem : m ∈ sortScoreDesc (reliabilityScore st)
        (availablePass st now st.failedMirrors st.libgenMirrors).1 :=
      (sortScoreDesc_mem _ _ _).mpr hap.1
    split
    · exact List.mem_append_left _ hmem
    · exact hmem
  · exact hap.2

/-- C6 (amended): a mirror is added to the failed set after a single recorded
failure (the code has no K-consecutive-failures threshold); while the fixed
300-second window since its last failure has not elapsed it is excluded from
the prioritized list provided at least 3 mirrors remain available (with fewer,
excluded mirrors are re-appended as fallback); once the window has elapsed it
is re-admitted to the list and removed from the failed set. -/
theorem mirror_cooldown_behaviour :
    (∀ (st : SearcherState) (m : String) (rt now : ℚ),
        m ∈ (updateMirrorReliability st m false rt now).failedMirrors) ∧
    (∀ (st : SearcherState) (m : String) (now : ℚ),
        m ∈ st.failedMirrors → ¬ (300 < now - lastFailureOf st m) →
        3 ≤ (availablePass st now st.failedMirrors st.libgenMirrors).1.length →
        m ∉ (getPrioritizedMirrors st now).1) ∧
    (∀ (st : SearcherState) (m : String) (now : ℚ),
        m ∈ st.failedMirrors → 300 < now - lastFailureOf st m →
        m ∈ st.libgenMirrors →
        m ∈ (getPrioritizedMirrors st now).1 ∧
          m ∉ (getPrioritizedMirrors st now).2.failedMirrors) := by
  refine ⟨?_, excluded_while_cooling, readmitted_after_cooldown⟩
  intro st m rt now
  simp only [updateMirrorReliability, Bool.false_eq_true, if_false]
  split
  · assumption
  · exact List.mem_append_right _ (List.mem_singleton.mpr rfl)

theorem c6St1_failed : c6St1.failedMirrors = ["https://libgen.la"] := by
  simp [c6St1, c6St0, updateMirrorReliability]

theorem c6St1_lastFailure : lastFailureOf c6St1 "https://libgen.la" = 100 := by
  simp [c6St1, c6St0, lastFailureOf, updateMirrorReliability, updatedMirrorStats,
    alistGet, alistSet, freshMirrorStats]

theorem c6St1_available :
    (availablePass c6St1 150 c6St1.failedMirrors c6St1.libgenMirrors).1 =
      ["https://libgen.li", "https://libgen.gl", "https://libgen.vg"] := by
  have hm : c6St1.libgenMirrors = c6St0.libgenMirrors := rfl
  rw [c6St1_failed, hm]
  have hlf : ¬ (300 < (150 : ℚ) - lastFailureOf c6St1 "https://libgen.la") := by
    rw [c6St1_lastFailure]; norm_num
  simp [availablePass, c6St0, hlf]

/-- C6 counterexample: after a single recorded failure (total request count 1,
well below the claimed K = 3 consecutive-failure threshold) libgen.la is
already absent from the prioritized mirror list. -/
theorem mirror_excluded_after_single_failure :
    ((alistGet "https://libgen.la" c6St1.mirrorReliability).map
      MirrorStats.totalRequests) = some 1 ∧
    "https://libgen.la" ∉ (getPrioritizedMirrors c6St1 150).1 := by
  constructor
  · simp [c6St1, c6St0, updateMirrorReliability, updatedMirrorStats, alistGet, alistSet,
      freshMirrorStats]
  · apply excluded_while_cooling
    · rw [c6St1_failed]; exact List.mem_singleton.mpr rfl
    · rw [c6St1_lastFailure]; norm_num
    · rw [c6St1_available]; decide

theorem c6St2_failed : c6St2.failedMirrors = ["https://libgen.la"] := by
  simp [c6St2, c6St0, updateMirrorReliability]

theorem c6St2_lastFailure : lastFailureOf c6St2 "https://libgen.la" = 0 := by
  simp [c6St2, c6St0, lastFailureOf, updateMirrorReliability, updatedMirrorStats,
    alistGet, alistSet, freshMirrorStats]

/-- C6 witness: the amended theorem at concrete states — a failure marks the
mirror failed, within the window it is excluded, after the window it is
re-admitted and cleared. -/
theorem mirror_cooldown_behaviour_witness :
    "https://libgen.la" ∈ (updateMirrorReliability c6St0 "https://libgen.la" false 1 100).failedMirrors ∧
    "https://libgen.la" ∉ (getPrioritizedMirrors c6St1 150).1 ∧
    ("https://libgen.la" ∈ (getPrioritizedMirrors c6St2 400).1 ∧
      "https://libgen.la" ∉ (getPrioritizedMirrors c6St2 400).2.failedMirrors) :=
  ⟨mirror_cooldown_behaviour.1 c6St0 "https://libgen.la" 1 100,
   mirror_cooldown_behaviour.2.1 c6St1 "https://libgen.la" 150
     (by rw [c6St1_failed]; exact List.mem_singleton.mpr rfl)
     (by rw [c6St1_lastFailure]; norm_num)
     (by rw [c6St1_available]; decide),
   mirror_cooldown_behaviour.2.2 c6St2 "https://libgen.la" 400
     (by rw [c6St2_failed]; exact List.mem_singleton.mpr rfl)
     (by rw [c6St2_lastFailure]; norm_num)
     (by simp [c6St2, c6St0, updateMirrorReliability])⟩

theorem updatedMirrorStats_wf (d0 : MirrorStats) (s : Bool) (now : ℚ)
    (h : d0.successfulRequests ≤ d0.totalRequests) :
    (updatedMirrorStats d0 s now).successfulRequests ≤
        (updatedMirrorStats d0 s now).totalRequests ∧
      0 ≤ (updatedMirrorStats d0 s now).successRate ∧
      (updatedMirrorStats d0 s now).successRate ≤ 1 := by
  have hfields : (updatedMirrorStats d0 s now).totalRequests = d0.totalRequests + 1 ∧
      (updatedMirrorStats d0 s now).successfulRequests =
        (if s then d0.successfulRequests + 1 else d0.successfulRequests) ∧
      (updatedMirrorStats d0 s now).successRate =
        ((updatedMirrorStats d0 s now).successfulRequests : ℚ) /
          ((updatedMirrorStats d0 s now).totalRequests : ℚ) := by
    unfold updatedMirrorStats
    split <;> simp
  rcases hfields with ⟨ht, hs, hr⟩
  have hle : (updatedMirrorStats d0 s now).successfulRequests ≤
      (updatedMirrorStats d0 s now).totalRequests := by
    rw [ht, hs]; split <;> omega
  refine ⟨hle, ?_, ?_⟩
  · rw [hr]
    positivity
  · rw [hr]
    have hpos : (0 : ℚ) < ((updatedMirrorStats d0 s now).totalRequests : ℚ) := by
      rw [ht]; positivity
    rw [div_le_one hpos]
    exact_mod_cast hle

theorem statsWF_update (st : SearcherState) (m : String) (s : Bool) (rt now : ℚ)
    (hwf : StatsWF st) : StatsWF (updateMirrorReliability st m s rt now) := by
  intro p hp
  simp only [updateMirrorReliability] at hp
  rcases alistSet_mem _ _ _ p hp with heq | hp'
  · subst heq
    dsimp only
    apply updatedMirrorStats_wf
    cases halist : alistGet m st.mirrorReliability with
    | none => simp [halist, freshMirrorStats]
    | some v =>
      simp only [halist, Option.getD_some]
      exact (hwf (m, v) (alistGet_mem m v _ halist)).1
  · exact hwf p hp'

/-- C8 (amended): every stored reliability score stays in [0, 1], but the score
is the cumulative ratio of successful to total requests — old outcomes never
decay; the exponential moving average with weight 0.3 is applied to the
per-mirror response-time average, not to the score. -/
theorem reliability_ratio_and_response_ema :
    (∀ (st : SearcherState) (m : String) (s : Bool) (rt now : ℚ),
        StatsWF st → StatsWF (updateMirrorReliability st m s rt now)) ∧
    (∀ (st : SearcherState) (m : String) (s : Bool) (rt now : ℚ) (stats : MirrorStats),
        alistGet m (updateMirrorReliability st m s rt now).mirrorReliability = some stats →
        stats.successRate = (stats.successfulRequests : ℚ) / (stats.totalRequests : ℚ)) ∧
    (∀ (st : SearcherState) (m : String) (s : Bool) (rt now old : ℚ),
        alistGet m st.mirrorResponseTimes = some old →
        alistGet m (updateMirrorReliability st m s rt now).mirrorResponseTimes =
          some (7/10 * old + 3/10 * rt)) ∧
    (∀ (st : SearcherState) (m : String) (s : Bool) (rt now : ℚ),
        alistGet m st.mirrorResponseTimes = none →
        alistGet m (updateMirrorReliability st m s rt now).mirrorResponseTimes = some rt) := by
  refine ⟨statsWF_update, ?_, ?_, ?_⟩
  · intro st m s rt now stats hget
    simp only [updateMirrorReliability, alistGet_set_self] at hget
    cases hget
    unfold updatedMirrorStats
    split <;> simp
  · intro st m s rt now old hold
    simp only [updateMirrorReliability, hold]
    exact alistGet_set_self m _ _
  · intro st m s rt now hnone
    simp only [updateMirrorReliability, hnone]
    exact alistGet_set_self m _ _

/-- C8 counterexample: after one successful sample on a fresh mirror the code's
score is the ratio 1/1 = 1; the spec's exponential moving average with weight
0.3 (starting from the default score 0.5) would give 0.65, a different
value — so the score update is not the claimed EMA. -/
theorem reliability_score_not_ema :
    ((alistGet "https://libgen.la" c8St1.mirrorReliability).map
      MirrorStats.successRate) = some 1 ∧
    emaSpecUpdate (1/2) 1 = 13/20 ∧ (1 : ℚ) ≠ 13/20 := by
  refine ⟨?_, by norm_num [emaSpecUpdate], by norm_num⟩
  simp [c8St1, c6St0, updateMirrorReliability, updatedMirrorStats, alistGet, alistSet,
    freshMirrorStats]

/-- C8 witness: the amended theorem at concrete states — well-formedness after
an update of the fresh state, the response-time EMA on a second sample, and the
initial response-time sample. -/
theorem reliability_ratio_and_response_ema_witness :
    StatsWF c8St1 ∧
    alistGet "https://libgen.la"
        (updateMirrorReliability c8St1 "https://libgen.la" false 3 20).mirrorResponseTimes =
      some (7/10 * 2 + 3/10 * 3) ∧
    alistGet "https://libgen.la" c8St1.mirrorResponseTimes = some 2 :=
  ⟨reliability_ratio_and_response_ema.1 c6St0 "https://libgen.la" true 2 10
      (by intro p hp; simp [c6St0] at hp),
   reliability_ratio_and_response_ema.2.2.1 c8St1 "https://libgen.la" false 3 20 2
      (by simp [c8St1, c6St0, updateMirrorReliability, alistGet, alistSet]),
   reliability_ratio_and_response_ema.2.2.2 c6St0 "https://libgen.la" true 2 10
      (by simp [c6St0, alistGet])⟩

/-! ### Search orchestrator -/

theorem alistGet_filter_keep {α : Type} (k : String) (v : α)
    (p : String × α → Bool) :
    ∀ l, alistGet k l = some v → p (k, v) = true →
      alistGet k (l.filter p) = some v := by
  intro l
  induction l with
  | nil => intro h _; exact Option.noConfusion h
  | cons q rest ih =>
    intro h hp
    simp only [alistGet] at h
    split at h
    · rename_i heq
      cases h
      rcases q with ⟨qk, qv⟩
      cases heq
      simp only [List.filter, hp]
      simp [alistGet]
    · rename_i hne
      simp only [List.filter]
      cases hq : p q with
      | true =>
        simp only [alistGet]
        rw [if_neg hne]
        exact ih h hp
      | false =>
        exact ih h hp

theorem alistGet_cacheErase (k : String) :
    ∀ c, alistGet k (cacheErase k c) = none := by
  intro c
  induction c with
  | nil => rfl
  | cons q rest ih =>
    simp only [cacheErase, List.filter]
    cases hq : decide (q.1 ≠ k) with
    | true =>
      simp only [alistGet]
      rw [if_neg (by simpa using of_decide_eq_true hq)]
      simpa [cacheErase] using ih
    | false =>
      simpa [cacheErase] using ih

theorem attemptState_preserves (uj : String → String → String) (now rt : ℚ)
    (st : SearcherState) (mirror : String) (inner : List InnerOutcome) :
    (attemptState uj now rt st mirror inner).cacheTtl = st.cacheTtl ∧
      (attemptState uj now rt st mirror inner).maxRetries = st.maxRetries ∧
      (attemptState uj now rt st mirror inner).searchCache = st.searchCache := by
  unfold attemptState
  split <;> exact ⟨rfl, rfl, rfl⟩

theorem searchLoop_preserves (uj : String → String → String) (now : ℚ) :
    ∀ (pairs : List (String × MirrorAttempt)) (st : SearcherState),
      (searchLoop uj now st pairs).state.cacheTtl = st.cacheTtl ∧
      (searchLoop uj now st pairs).state.maxRetries = st.maxRetries ∧
      (searchLoop uj now st pairs).state.searchCache = st.searchCache := by
  intro pairs
  induction pairs with
  | nil => intro st; exact ⟨rfl, rfl, rfl⟩
  | cons p rest ih =>
    intro st
    rcases p with ⟨mirror, a⟩
    cases a with
    | timedOut => exact ih st
    | completed inner rt =>
      simp only [searchLoop]
      split
      · have h1 := ih (attemptState uj now rt st mirror inner)
        have h2 := attemptState_preserves uj now rt st mirror inner
        exact ⟨h1.1.trans h2.1, (h1.2.1).trans h2.2.1, (h1.2.2).trans h2.2.2⟩
      · exact attemptState_preserves uj now rt st mirror inner

theorem zip_take_agree {α β : Type} (n : Nat) :
    ∀ (l : List α) (a1 a2 : List β), l.length ≤ n → a1.take n = a2.take n →
      l.zip a1 = l.zip a2 := by
  induction n with
  | zero =>
    intro l a1 a2 hl _
    rw [Nat.le_zero] at hl
    rw [List.length_eq_zero] at hl
    subst hl
    rfl
  | succ k ih =>
    intro l a1 a2 hl hta
    cases l with
    | nil => rfl
    | cons x xs =>
      cases a1 with
      | nil =>
        cases a2 with
        | nil => rfl
        | cons b2 bs2 => simp [List.take] at hta
      | cons b1 bs1 =>
        cases a2 with
        | nil => simp [List.take] at hta
        | cons b2 bs2 =>
          simp only [List.take, List.cons.injEq] at hta
          simp only [List.zip_cons_cons, hta.1]
          have := ih xs bs1 bs2 (by simpa using Nat.le_of_succ_le_succ hl) hta.2
          rw [this]

theorem searchLoop_results_find (uj : String → String → String) (now : ℚ) :
    ∀ (pairs : List (String × MirrorAttempt)) (st : SearcherState),
      (searchLoop uj now st pairs).results =
        ((pairs.map (attemptYield uj st.maxRetries)).find? fun r => !r.isEmpty).getD [] := by
  intro pairs
  induction pairs with
  | nil => intro st; rfl
  | cons p rest ih =>
    intro st
    rcases p with ⟨mirror, a⟩
    cases a with
    | timedOut =>
      simp only [searchLoop, List.map_cons, attemptYield]
      rw [List.find?_cons_of_neg _ (by simp)]
      exact ih st
    | completed inner rt =>
      simp only [searchLoop, List.map_cons, attemptYield]
      split
      · rename_i hemp
        rw [List.find?_cons_of_neg _ (by simp [hemp])]
        rw [ih (attemptState uj now rt st mirror inner),
          (attemptState_preserves uj now rt st mirror inner).2.1]
      · rename_i hne
        rw [List.find?_cons_of_pos _ (by simpa using hne)]
        rfl

theorem searchLoop_recorded_only_transport (uj : String → String → String) (now : ℚ) :
    ∀ (pairs : List (String × MirrorAttempt)) (st : SearcherState) (mirror : String),
      mirror ∈ (searchLoop uj now st pairs).recorded →
      ∃ inner rt, (mirror, MirrorAttempt.completed inner rt) ∈ pairs ∧
        (searchMirrorAsync uj st.maxRetries mirror inner).2 = true := by
  intro pairs
  induction pairs with
  | nil => intro st mirror h; simp [searchLoop] at h
  | cons p rest ih =>
    intro st mirror h
    rcases p with ⟨m, a⟩
    cases a with
    | timedOut =>
      rcases ih st mirror h with ⟨inner, rt, hin, hrec⟩
      exact ⟨inner, rt, List.mem_cons_of_mem _ hin, hrec⟩
    | completed inner rt =>
      have hstep : mirror ∈ attemptLog uj st m inner →
          ∃ i r, (mirror, MirrorAttempt.completed i r) ∈ (m, MirrorAttempt.completed inner rt) :: rest ∧
            (searchMirrorAsync uj st.maxRetries mirror i).2 = true := by
        intro hm
        unfold attemptLog at hm
        split at hm
        · rename_i hrec
          rcases List.mem_singleton.mp hm with rfl
          exact ⟨inner, rt, List.mem_cons_self _ _, hrec⟩
        · simp at hm
      simp only [searchLoop] at h
      split at h
      · dsimp only at h
        rcases List.mem_append.mp h with h' | h'
        · exact hstep h'
        · rcases ih (attemptState uj now rt st m inner) mirror h' with ⟨i, r, hin, hrec⟩
          rw [(attemptState_preserves uj now rt st m inner).2.1] at hrec
          exact ⟨i, r, List.mem_cons_of_mem _ hin, hrec⟩
      · exact hstep h

theorem searchModel_hit (uj : String → String → String) (env : SearchEnv)
    (st : SearcherState) (q : String) (m : Nat) (t t0 : ℚ) (d : List Book)
    (hq : isMd5Query q = false)
    (hget : alistGet (cacheKeyOf q m) st.searchCache = some (d, t0))
    (hc : t - t0 < st.cacheTtl) :
    searchModel uj env st q m t = ⟨.ok d, st, false, false, []⟩ := by
  simp only [searchModel, hq, Bool.false_eq_true, if_false, hget, if_pos hc]

theorem searchModel_miss_none (uj : String → String → String) (env : SearchEnv)
    (st : SearcherState) (q : String) (m : Nat) (t : ℚ)
    (hq : isMd5Query q = false)
    (hget : alistGet (cacheKeyOf q m) st.searchCache = none) :
    searchModel uj env st q m t =
      searchMissResult uj env st (cacheKeyOf q m) m t := by
  simp only [searchModel, hq, Bool.false_eq_true, if_false, hget]

theorem searchModel_miss_expired (uj : String → String → String) (env : SearchEnv)
    (st : SearcherState) (q : String) (m : Nat) (t t0 : ℚ) (d : List Book)
    (hq : isMd5Query q = false)
    (hget : alistGet (cacheKeyOf q m) st.searchCache = some (d, t0))
    (hc : ¬ (t - t0 < st.cacheTtl)) :
    searchModel uj env st q m t =
      searchMissResult uj env
        { st with searchCache := cacheErase (cacheKeyOf q m) st.searchCache }
        (cacheKeyOf q m) m t := by
  simp only [searchModel, hq, Bool.false_eq_true, if_false, hget, if_neg hc]

theorem searchMissResult_state_cacheTtl (uj : String → String → String)
    (env : SearchEnv) (st1 : SearcherState) (key : String) (m : Nat) (t : ℚ) :
    (searchMissResult uj env st1 key m t).state.cacheTtl = st1.cacheTtl := by
  have h := (searchLoop_preserves uj t
    (((getPrioritizedMirrors st1 t).1.take 5).zip env.attempts)
    (getPrioritizedMirrors st1 t).2).1
  simpa [searchMissResult] using h

theorem searchMissResult_spec (uj : String → String → String) (env : SearchEnv)
    (st1 : SearcherState) (key : String) (m : Nat) (t : ℚ)
    (h0 : 0 ≤ st1.cacheTtl) :
    ∃ fin, (searchMissResult uj env st1 key m t).outcome = Except.ok fin ∧
      (searchMissResult uj env st1 key m t).networkAttempted = true ∧
      alistGet key (searchMissResult uj env st1 key m t).state.searchCache =
        some (fin, t) := by
  refine ⟨_, rfl, rfl, ?_⟩
  simp only [searchMissResult]
  have httl : (searchLoop uj t (getPrioritizedMirrors st1 t).2
      (((getPrioritizedMirrors st1 t).1.take 5).zip env.attempts)).state.cacheTtl =
      st1.cacheTtl :=
    (searchLoop_preserves uj t _ _).1
  apply alistGet_filter_keep
  · exact alistGet_set_self key _ _
  · rw [httl]
    simp only [sub_self]
    rw [decide_eq_false (not_lt.mpr h0)]
    rfl

theorem searchMissResult_frame (uj : String → String → String)
    (env1 env2 : SearchEnv) (st1 : SearcherState) (key : String) (m : Nat) (t : ℚ)
    (h : env1.attempts.take 5 = env2.attempts.take 5) :
    searchMissResult uj env1 st1 key m t = searchMissResult uj env2 st1 key m t := by
  simp only [searchMissResult]
  rw [zip_take_agree 5 ((getPrioritizedMirrors st1 t).1.take 5) env1.attempts env2.attempts
    (List.length_take_le 5 (getPrioritizedMirrors st1 t).1) h]

/-- C3: a `search` call that misses the cache performs a network attempt and
stores its results; a second call for the same query and limit within the TTL
returns the identical result list, performs no network attempt, and leaves the
state untouched, whatever the network would have answered; an expired entry is
never served — the call performs a fresh network attempt and the entry is
replaced by one freshly stamped at the call's time. -/
theorem search_cache_ttl_behaviour :
    (∀ (uj : String → String → String) (env1 env2 : SearchEnv) (st : SearcherState)
        (q : String) (m : Nat) (t1 t2 : ℚ),
        isMd5Query q = false →
        (∀ d t0, alistGet (cacheKeyOf q m) st.searchCache = some (d, t0) →
          ¬ (t1 - t0 < st.cacheTtl)) →
        t1 ≤ t2 → t2 - t1 < st.cacheTtl →
        (searchModel uj env2 (searchModel uj env1 st q m t1).state q m t2).outcome =
            (searchModel uj env1 st q m t1).outcome ∧
          (searchModel uj env2 (searchModel uj env1 st q m t1).state q m t2).networkAttempted
            = false ∧
          (searchModel uj env2 (searchModel uj env1 st q m t1).state q m t2).state =
            (searchModel uj env1 st q m t1).state ∧
          (searchModel uj env1 st q m t1).networkAttempted = true) ∧
    (∀ (uj : String → String → String) (env : SearchEnv) (st : SearcherState)
        (q : String) (m : Nat) (t1 t0 : ℚ) (d : List Book),
        isMd5Query q = false →
        alistGet (cacheKeyOf q m) st.searchCache = some (d, t0) →
        ¬ (t1 - t0 < st.cacheTtl) → 0 ≤ st.cacheTtl →
        (searchModel uj env st q m t1).networkAttempted = true ∧
        ∃ fin, alistGet (cacheKeyOf q m) (searchModel uj env st q m t1).state.searchCache =
            some (fin, t1) ∧
          (searchModel uj env st q m t1).outcome = Except.ok fin) := by
  have missCase : ∀ (uj : String → String → String) (env : SearchEnv)
      (st st1 : SearcherState) (q : String) (m : Nat) (t1 : ℚ),
      searchModel uj env st q m t1 = searchMissResult uj env st1 (cacheKeyOf q m) m t1 →
      st1.cacheTtl = st.cacheTtl → 0 ≤ st.cacheTtl →
      (searchModel uj env st q m t1).networkAttempted = true ∧
      ∃ fin, alistGet (cacheKeyOf q m) (searchModel uj env st q m t1).state.searchCache =
          some (fin, t1) ∧
        (searchModel uj env st q m t1).outcome = Except.ok fin := by
    intro uj env st st1 q m t1 heq httl h0
    rcases searchMissResult_spec uj env st1 (cacheKeyOf q m) m t1 (httl ▸ h0) with
      ⟨fin, hout, hnet, hcache⟩
    rw [heq]
    exact ⟨hnet, fin, hcache, hout⟩
  have missShape : ∀ (uj : String → String → String) (env : SearchEnv)
      (st : SearcherState) (q : String) (m : Nat) (t1 : ℚ),
      isMd5Query q = false →
      (∀ d t0, alistGet (cacheKeyOf q m) st.searchCache = some (d, t0) →
        ¬ (t1 - t0 < st.cacheTtl)) →
      ∃ st1, searchModel uj env st q m t1 = searchMissResult uj env st1 (cacheKeyOf q m) m t1 ∧
        st1.cacheTtl = st.cacheTtl := by
    intro uj env st q m t1 hq hmiss
    cases hget : alistGet (cacheKeyOf q m) st.searchCache with
    | none => exact ⟨st, searchModel_miss_none uj env st q m t1 hq hget, rfl⟩
    | some p =>
      exact ⟨_, searchModel_miss_expired uj env st q m t1 p.2 p.1 hq (by rw [hget])
        (hmiss p.1 p.2 (by rw [hget])), rfl⟩
  constructor
  · intro uj env1 env2 st q m t1 t2 hq hmiss ht httl
    have h0 : 0 ≤ st.cacheTtl :=
      le_of_lt (lt_of_le_of_lt (by simpa [sub_nonneg] using ht) httl)
    rcases missShape uj env1 st q m t1 hq hmiss with ⟨st1, heq, httl1⟩
    rcases missCase uj env1 st st1 q m t1 heq httl1 h0 with ⟨hnet, fin, hcache, hout⟩
    have httl2 : (searchModel uj env1 st q m t1).state.cacheTtl = st.cacheTtl := by
      rw [heq, searchMissResult_state_cacheTtl, httl1]
    have hhit := searchModel_hit uj env2 (searchModel uj env1 st q m t1).state q m t2 t1 fin
      hq hcache (by rw [httl2]; exact httl)
    rw [hhit]
    exact ⟨hout.symm, rfl, rfl, hnet⟩
  · intro uj env st q m t1 t0 d hq hget hexp h0
    exact missCase uj env st _ q m t1
      (searchModel_miss_expired uj env st q m t1 t0 d hq hget hexp) rfl h0

/-- C3 witness: the cache behaviour at a concrete single-mirror run — the
first call at time 0 attempts the network, the repeat at time 100 (within the
300-second TTL) is served unchanged with no network attempt. -/
theorem search_cache_ttl_behaviour_witness :
    (searchModel uj0 c3Env (searchModel uj0 c3Env c3St "orwell books" 50 0).state
        "orwell books" 50 100).outcome =
      (searchModel uj0 c3Env c3St "orwell books" 50 0).outcome ∧
    (searchModel uj0 c3Env (searchModel uj0 c3Env c3St "orwell books" 50 0).state
        "orwell books" 50 100).networkAttempted = false ∧
    (searchModel uj0 c3Env (searchModel uj0 c3Env c3St "orwell books" 50 0).state
        "orwell books" 50 100).state =
      (searchModel uj0 c3Env c3St "orwell books" 50 0).state ∧
    (searchModel uj0 c3Env c3St "orwell books" 50 0).networkAttempted = true :=
  search_cache_ttl_behaviour.1 uj0 c3Env c3Env c3St "orwell books" 50 0 100
    (by decide)
    (by intro d t0 hcontr; simp [c3St, alistGet] at hcontr)
    (by norm_num)
    (by norm_num [c3St])

/-- C5 (amended): `search`'s result depends only on the first five mirror
attempts; the loop returns the first non-empty parsed result set (empty when
every attempt fails or is empty); and a mirror failure is recorded only by a
completed attempt whose inner retries were exhausted — never by a timed-out
attempt. -/
theorem search_first_success_sequential :
    (∀ (uj : String → String → String) (env1 env2 : SearchEnv) (st : SearcherState)
        (q : String) (m : Nat) (t : ℚ),
        isMd5Query q = false →
        env1.attempts.take 5 = env2.attempts.take 5 →
        searchModel uj env1 st q m t = searchModel uj env2 st q m t) ∧
    (∀ (uj : String → String → String) (now : ℚ) (st : SearcherState)
        (pairs : List (String × MirrorAttempt)),
        (searchLoop uj now st pairs).results =
          ((pairs.map (attemptYield uj st.maxRetries)).find? fun r => !r.isEmpty).getD []) ∧
    (∀ (uj : String → String → String) (now : ℚ) (st : SearcherState)
        (pairs : List (String × MirrorAttempt)) (mirror : String),
        mirror ∈ (searchLoop uj now st pairs).recorded →
        ∃ inner rt, (mirror, MirrorAttempt.completed inner rt) ∈ pairs ∧
          (searchMirrorAsync uj st.maxRetries mirror inner).2 = true) := by
  refine ⟨?_, fun uj now st pairs => searchLoop_results_find uj now pairs st,
    fun uj now st pairs => searchLoop_recorded_only_transport uj now pairs st⟩
  intro uj env1 env2 st q m t hq hframe
  cases hget : alistGet (cacheKeyOf q m) st.searchCache with
  | none =>
    rw [searchModel_miss_none uj env1 st q m t hq hget,
      searchModel_miss_none uj env2 st q m t hq hget]
    exact searchMissResult_frame uj env1 env2 st _ m t hframe
  | some p =>
    by_cases hc : t - p.2 < st.cacheTtl
    · rw [searchModel_hit uj env1 st q m t p.2 p.1 hq (by rw [hget]) hc,
        searchModel_hit uj env2 st q m t p.2 p.1 hq (by rw [hget]) hc]
    · rw [searchModel_miss_expired uj env1 st q m t p.2 p.1 hq (by rw [hget]) hc,
        searchModel_miss_expired uj env2 st q m t p.2 p.1 hq (by rw [hget]) hc]
      exact searchMissResult_frame uj env1 env2 _ _ m t hframe

/-- C5 counterexample: the first mirror attempt times out and the loop moves on
to the second, which wins — yet no failure is recorded for the timed-out
mirror (the recorded list is empty), contradicting "on timeout ... it records
the failure". -/
theorem search_timeout_records_nothing :
    (searchModel uj0 c5Env c5St "orwell books" 50 0).recorded = [] ∧
    (searchModel uj0 c5Env c5St "orwell books" 50 0).outcome = Except.ok [book1984] := by
  have hp : getPrioritizedMirrors c5St 0 = (["https://libgen.la", "https://libgen.li"], c5St) := by
    simp [getPrioritizedMirrors, availablePass, sortScoreDesc, insertScoreDesc,
      reliabilityScore, alistGet, c5St]
  rw [searchModel_miss_none uj0 c5Env c5St "orwell books" 50 0 (by decide) (by decide)]
  simp only [searchMissResult, hp]
  exact ⟨by decide, rfl⟩

/-- C5 witness: the amended theorem's frame part at identical environments, and
the failure-recording part at a concrete transport-failing attempt. -/
theorem search_first_success_sequential_witness :
    searchModel uj0 c5Env c5St "orwell books" 50 0 = searchModel uj0 c5Env c5St "orwell books" 50 0 ∧
    ∃ inner rt,
      ("https://libgen.la", MirrorAttempt.completed inner rt) ∈
        [("https://libgen.la", MirrorAttempt.completed [InnerOutcome.raised] 1)] ∧
      (searchMirrorAsync uj0 c3St.maxRetries "https://libgen.la" inner).2 = true :=
  ⟨search_first_success_sequential.1 uj0 c5Env c5Env c5St "orwell books" 50 0
      (by decide) rfl,
   search_first_success_sequential.2.2 uj0 0 c3St
      [("https://libgen.la", MirrorAttempt.completed [InnerOutcome.raised] 1)]
      "https://libgen.la" (by decide)⟩

/-- C7 (amended): `search` never raises — every call returns an `Except.ok`
list, and when every attempted mirror fails or yields an empty parse the
returned list is empty, so a transport outage is indistinguishable from a
legitimate zero-match outcome. -/
theorem search_never_raises_empty_on_failure :
    (∀ (uj : String → String → String) (env : SearchEnv) (st : SearcherState)
        (q : String) (m : Nat) (t : ℚ),
        ∃ l, (searchModel uj env st q m t).outcome = Except.ok l) ∧
    (∀ (uj : String → String → String) (now : ℚ) (st : SearcherState)
        (pairs : List (String × MirrorAttempt)),
        (∀ r ∈ pairs.map (attemptYield uj st.maxRetries), r = []) →
        (searchLoop uj now st pairs).results = []) := by
  constructor
  · intro uj env st q m t
    by_cases hq : isMd5Query q = true
    · simp only [searchModel, hq, if_true]
      split
      · exact ⟨[], rfl⟩
      · exact ⟨_, rfl⟩
    · have hq' : isMd5Query q = false := by simpa using hq
      cases hget : alistGet (cacheKeyOf q m) st.searchCache with
      | none =>
        rw [searchModel_miss_none uj env st q m t hq' hget]
        exact ⟨_, rfl⟩
      | some p =>
        by_cases hc : t - p.2 < st.cacheTtl
        · rw [searchModel_hit uj env st q m t p.2 p.1 hq' (by rw [hget]) hc]
          exact ⟨p.1, rfl⟩
        · rw [searchModel_miss_expired uj env st q m t p.2 p.1 hq' (by rw [hget]) hc]
          exact ⟨_, rfl⟩
  · intro uj now st pairs hall
    rw [searchLoop_results_find]
    rw [List.find?_eq_none.mpr fun x hx => by rw [hall x hx]; simp]
    rfl

/-- C7 counterexample: a trace in which the only attempted mirror fails at the
transport level (its failure is recorded) — `search` raises nothing and returns
`Except.ok []`, exactly as for a legitimate zero-match query, so no distinct
transport error is surfaced. -/
theorem search_all_transport_fail_ok_empty :
    (searchModel uj0 c7Env c3St "no results query" 50 0).outcome = Except.ok [] ∧
    (searchModel uj0 c7Env c3St "no results query" 50 0).recorded = ["https://libgen.la"] := by
  rw [searchModel_miss_none uj0 c7Env c3St "no results query" 50 0 (by decide) (by decide)]
  exact ⟨rfl, by decide⟩

/-- C7 witness: the never-raises part needs no witness (no hypotheses); the
empty-result part applied to a concrete all-failing trace. -/
theorem search_never_raises_empty_on_failure_witness :
    (searchLoop uj0 0 c3St
      [("https://libgen.la", MirrorAttempt.completed [InnerOutcome.raised] 1)]).results = [] :=
  search_never_raises_empty_on_failure.2 uj0 0 c3St
    [("https://libgen.la", MirrorAttempt.completed [InnerOutcome.raised] 1)]
    (by decide)

/-- C10: an MD5-hash query (case-insensitively 32 hex characters) leaves the
searcher state — and so the result cache — completely unchanged and runs link
resolution instead; a repeated identical hash query at any later time runs link
resolution again rather than being served from any cache. -/
theorem md5_query_bypasses_cache :
    ∀ (uj : String → String → String) (env1 env2 : SearchEnv) (st : SearcherState)
      (q : String) (m : Nat) (t1 t2 : ℚ), isMd5Query q = true →
      (searchModel uj env1 st q m t1).state = st ∧
      (searchModel uj env1 st q m t1).resolveCalled = true ∧
      (searchModel uj env1 st q m t1).networkAttempted = false ∧
      (searchModel uj env2 (searchModel uj env1 st q m t1).state q m t2).resolveCalled = true ∧
      (searchModel uj env2 (searchModel uj env1 st q m t1).state q m t2).state = st := by
  intro uj env1 env2 st q m t1 t2 hq
  have base : ∀ (env : SearchEnv) (t : ℚ), (searchModel uj env st q m t).state = st ∧
      (searchModel uj env st q m t).resolveCalled = true ∧
      (searchModel uj env st q m t).networkAttempted = false := by
    intro env t
    simp only [searchModel, hq, if_true]
    split
    · exact ⟨rfl, rfl, rfl⟩
    · exact ⟨rfl, rfl, rfl⟩
  refine ⟨(base env1 t1).1, (base env1 t1).2.1, (base env1 t1).2.2, ?_, ?_⟩
  · rw [(base env1 t1).1]
    exact (base env2 t2).2.1
  · rw [(base env1 t1).1]
    exact (base env2 t2).1

/-- C10 witness: the hash-query frame property at the canonical empty-file MD5
hash. -/
theorem md5_query_bypasses_cache_witness :
    (searchModel uj0 c3Env c3St "d41d8cd98f00b204e9800998ecf8427e" 50 0).state = c3St ∧
    (searchModel uj0 c3Env c3St "d41d8cd98f00b204e9800998ecf8427e" 50 0).resolveCalled = true ∧
    (searchModel uj0 c3Env c3St "d41d8cd98f00b204e9800998ecf8427e" 50 0).networkAttempted = false ∧
    (searchModel uj0 c3Env
        (searchModel uj0 c3Env c3St "d41d8cd98f00b204e9800998ecf8427e" 50 0).state
        "d41d8cd98f00b204e9800998ecf8427e" 50 100).resolveCalled = true ∧
    (searchModel uj0 c3Env
        (searchModel uj0 c3Env c3St "d41d8cd98f00b204e9800998ecf8427e" 50 0).state
        "d41d8cd98f00b204e9800998ecf8427e" 50 100).state = c3St :=
  md5_query_bypasses_cache uj0 c3Env c3Env c3St "d41d8cd98f00b204e9800998ecf8427e" 50 0 100
    (by decide)

end GetKetabha
